import Mathlib

/-!
Snake game (`snakegame.c`): shallow embedding and checked properties.

The C program keeps a `Snake` (an array of 100 `Position`s, a length, a direction
and a score), one food `Position` and a `game_over` flag, and runs one loop whose
body reads a key, steers, advances the snake, checks for collisions and for food.

Modelling choices.

* C `int` is modelled by `Int`.  Signed overflow is undefined in C; inside a game
  the coordinates are bounded by the board and the score by the length, so no wrap
  around is modelled.  C `/` and `%` are `Int.tdiv` and `Int.tmod` (truncation).
* The array `position[100]` is modelled by a function `Nat → Position`.  Indices
  `>= SNAKE_CAPACITY` lie outside the C array; the model gives them cells too, so
  that every run of the C program with defined behaviour is a run of the model and
  an over-run of the array shows up as a length above `SNAKE_CAPACITY`.
  The model describes the program only while `length ≤ SNAKE_CAPACITY`: with a
  longer snake the loops of the C program index memory outside the array, which is
  undefined in C (in the struct as it is laid out by the usual compilers the
  cell `position[100]` is the memory of `length` and `direction`, so the store
  `position[100] = position[99]` of `update_snake` overwrites both).  The length is
  never tested against the size of the array (`length_exceeds_capacity`), and the
  properties of a tick that depend on `update_snake` are therefore stated for a
  tick that starts with `length ≤ SNAKE_CAPACITY`.
* `COLS` and `LINES` (the ncurses globals) are the parameters `W` and `H`.
* `rand()` is a stream `rng : Nat → Nat` of non-negative numbers together with
  the number of calls made so far (`Game.rand_calls`).
* `getch()` is the key code `ch : Int` handed to one tick (`ERR` when no key is
  waiting).  `draw_game`, `usleep` and the other ncurses calls do not touch the
  game state and are left out.
* The `do … while` of `generate_food` may run for ever; it takes a `fuel` bound
  on the number of rounds and yields `none` when the bound is used up.  A
  division by zero (`COLS - 2 = 0` or `LINES - 2 = 0`) yields `none` as well.
-/

namespace SnakeGame

/-! ## Constants -/

/-- The `#define SNAKE_INITIAL_LENGTH 3`. -/
def SNAKE_INITIAL_LENGTH : Int := 3

/-- The size of the array `Position position[100]`. -/
def SNAKE_CAPACITY : Int := 100

/-- The `#define UP 1`. -/
def UP : Int := 1
/-- The `#define DOWN 2`. -/
def DOWN : Int := 2
/-- The `#define LEFT 3`. -/
def LEFT : Int := 3
/-- The `#define RIGHT 4`. -/
def RIGHT : Int := 4

/-- The ncurses key code `KEY_DOWN` (octal 0402). -/
def KEY_DOWN : Int := 258
/-- The ncurses key code `KEY_UP` (octal 0403). -/
def KEY_UP : Int := 259
/-- The ncurses key code `KEY_LEFT` (octal 0404). -/
def KEY_LEFT : Int := 260
/-- The ncurses key code `KEY_RIGHT` (octal 0405). -/
def KEY_RIGHT : Int := 261
/-- The character `'q'`. -/
def KEY_Q : Int := 113
/-- The value `ERR` that `getch()` gives when no key is waiting. -/
def ERR : Int := -1

/-! ## Data model -/

/-- The `typedef struct { int x, y; } Position;`. -/
structure Position where
  x : Int
  y : Int
  deriving DecidableEq, Repr

/-- The `typedef struct { Position position[100]; int length; int direction; int score; } Snake;`.
The cells `position 0 … position 99` are the C array.  A cell `position i` with
`i ≥ 100` is no cell of the C array (in the C struct that memory belongs to `length`,
`direction`, `score` and to what follows the struct): the model agrees with the
program as long as no such cell is read or written, that is while
`length ≤ SNAKE_CAPACITY`. -/
structure Snake where
  position : Nat → Position
  length : Int
  direction : Int
  score : Int

/-- The variables of `main`: the snake, the food, the `game_over` flag, and the
number of `rand()` calls made so far. -/
structure Game where
  snake : Snake
  food : Position
  game_over : Bool
  rand_calls : Nat

/-! ## Operations -/

/-- The body loop of `update_snake`: `for (i = length - 1; i > 0; i--) position[i] = position[i-1]`.
The second argument is the current value of `i`.  Started at `i ≤ 99` it writes
cells of the C array only; a store at an index `≥ 100` is a store outside the C
array, which this function does not describe. -/
def shift_body (p : Nat → Position) : Nat → (Nat → Position)
  | 0 => p
  | i + 1 => shift_body (Function.update p (i + 1) ⟨(p i).x, (p i).y⟩) i

/-- The `switch (snake->direction)` of `update_snake`, applied to `position[0]`. -/
def move_head (direction : Int) (head : Position) : Position :=
  if direction = UP then ⟨head.x, head.y - 1⟩
  else if direction = DOWN then ⟨head.x, head.y + 1⟩
  else if direction = LEFT then ⟨head.x - 1, head.y⟩
  else if direction = RIGHT then ⟨head.x + 1, head.y⟩
  else head

/-- The function `update_snake`.  It is the C function for `length ≤ SNAKE_CAPACITY`;
for a longer snake the first store of the C loop is outside the array. -/
def update_snake (snake : Snake) : Snake :=
  let p := shift_body snake.position (snake.length - 1).toNat
  { snake with position := Function.update p 0 (move_head snake.direction (p 0)) }

/-- A scanning loop `for (i = start; …; i++) if (position[i].x == t.x && position[i].y == t.y) …`
that stops at the first match: `n` rounds are left and `i` is the current index.
It is the loop of `generate_food` (start 0, target the food) and the second loop
of `is_collision` (start 1, target the head). -/
def scan_segments (p : Nat → Position) (t : Position) : Nat → Nat → Bool
  | 0, _ => false
  | n + 1, i => if (p i).x = t.x ∧ (p i).y = t.y then true else scan_segments p t n (i + 1)

/-- The function `is_collision`, with `COLS = W` and `LINES = H`. -/
def is_collision (W H : Int) (snake : Snake) : Bool :=
  if (snake.position 0).x ≤ 0 ∨ (snake.position 0).x ≥ W - 1 ∨
      (snake.position 0).y ≤ 0 ∨ (snake.position 0).y ≥ H - 1 then true
  else scan_segments snake.position (snake.position 0) (snake.length - 1).toNat 1

/-- The function `is_food_eaten`. -/
def is_food_eaten (snake : Snake) (food : Position) : Bool :=
  decide ((snake.position 0).x = food.x ∧ (snake.position 0).y = food.y)

/-- The two draws `food->x = rand() % (COLS - 2) + 1; food->y = rand() % (LINES - 2) + 1;`
of `generate_food`, when `k` calls of `rand()` were made before. -/
def draw_food (W H : Int) (rng : Nat → Nat) (k : Nat) : Position :=
  ⟨Int.tmod (rng k) (W - 2) + 1, Int.tmod (rng (k + 1)) (H - 2) + 1⟩

/-- The function `generate_food`: each round draws `x` then `y` with `rand()` and
scans the snake; the result is the food and the new count of `rand()` calls. -/
def generate_food (W H : Int) (rng : Nat → Nat) (snake : Snake) : Nat → Nat → Option (Position × Nat)
  | 0, _ => none
  | fuel + 1, k =>
    if W - 2 = 0 ∨ H - 2 = 0 then none
    else
      let food : Position := draw_food W H rng k
      if scan_segments snake.position food snake.length.toNat 0 then
        generate_food W H rng snake fuel (k + 2)
      else some (food, k + 2)

/-- The loop `for (i = 1; i < length; i++) position[i] = (center_x - i, center_y)` of
`initialize_game`: `n` rounds are left and `i` is the current index. -/
def init_body (cx cy : Int) (p : Nat → Position) : Nat → Nat → (Nat → Position)
  | 0, _ => p
  | n + 1, i => init_body cx cy (Function.update p i ⟨cx - i, cy⟩) n (i + 1)

/-- The part of `initialize_game` before the call of `generate_food`.  The
argument is the memory the caller passes in (`Snake snake;` is not initialised in
`main`); only `length`, `direction`, `score` and the first `length` cells are written. -/
def initialize_snake (W H : Int) (mem : Snake) : Snake :=
  let center_x := Int.tdiv W 2
  let center_y := Int.tdiv H 2
  let p := Function.update mem.position 0 ⟨center_x, center_y⟩
  { position := init_body center_x center_y p (SNAKE_INITIAL_LENGTH - 1).toNat 1
    length := SNAKE_INITIAL_LENGTH
    direction := RIGHT
    score := 0 }

/-- The function `initialize_game` followed by `bool game_over = false;`. -/
def initialize_game (W H : Int) (rng : Nat → Nat) (fuel : Nat) (mem : Snake) : Option Game :=
  match generate_food W H rng (initialize_snake W H mem) fuel 0 with
  | none => none
  | some (food, k) => some ⟨initialize_snake W H mem, food, false, k⟩

/-- The `switch (ch)` of `main`: the new snake and the new `game_over` flag. -/
def handle_key (ch : Int) (snake : Snake) (game_over : Bool) : Snake × Bool :=
  if ch = KEY_UP then
    (if snake.direction ≠ DOWN then { snake with direction := UP } else snake, game_over)
  else if ch = KEY_DOWN then
    (if snake.direction ≠ UP then { snake with direction := DOWN } else snake, game_over)
  else if ch = KEY_LEFT then
    (if snake.direction ≠ RIGHT then { snake with direction := LEFT } else snake, game_over)
  else if ch = KEY_RIGHT then
    (if snake.direction ≠ LEFT then { snake with direction := RIGHT } else snake, game_over)
  else if ch = KEY_Q then (snake, true)
  else (snake, game_over)

/-- The snake after the `switch (ch)` and `update_snake` of one loop body. -/
def advanced (ch : Int) (g : Game) : Snake :=
  update_snake (handle_key ch g.snake g.game_over).1

/-- The `game_over` flag after the `switch (ch)`, `update_snake` and the collision check. -/
def flag_after_collision (W H : Int) (ch : Int) (g : Game) : Bool :=
  if is_collision W H (advanced ch g) then true else (handle_key ch g.snake g.game_over).2

/-- The two statements `snake.length++; snake.score += 10;` of `main`. -/
def grow (snake : Snake) : Snake :=
  { snake with length := snake.length + 1, score := snake.score + 10 }

/-- One body of the `while (!game_over)` loop of `main`, for the key `ch`. -/
def tick (W H : Int) (rng : Nat → Nat) (fuel : Nat) (ch : Int) (g : Game) : Option Game :=
  let snake := advanced ch g
  let game_over := flag_after_collision W H ch g
  if is_food_eaten snake g.food then
    match generate_food W H rng (grow snake) fuel g.rand_calls with
    | none => none
    | some (food, k) => some ⟨grow snake, food, game_over, k⟩
  else some ⟨snake, g.food, game_over, g.rand_calls⟩

/-- The loop `while (!game_over) { ch = getch(); … }` over the keys read in
successive rounds; it stops when the flag is set (or the listed keys are used up). -/
def game_loop (W H : Int) (rng : Nat → Nat) (fuel : Nat) : List Int → Game → Option Game
  | [], g => some g
  | ch :: rest, g =>
    if g.game_over then some g
    else
      match tick W H rng fuel ch g with
      | none => none
      | some g1 => game_loop W H rng fuel rest g1

/-- The states of `main` seen right after `initialize_game` and at the end of each
loop body, for a board `W × H`, a random stream and an initial memory. -/
inductive Reachable (W H : Int) (rng : Nat → Nat) (mem : Snake) : Game → Prop
  | init (fuel : Nat) (g : Game) :
      initialize_game W H rng fuel mem = some g → Reachable W H rng mem g
  | step (fuel : Nat) (ch : Int) (g g1 : Game) :
      Reachable W H rng mem g → g.game_over = false →
      tick W H rng fuel ch g = some g1 → Reachable W H rng mem g1

/-! ## Vocabulary of the properties -/

/-- The direction opposite to `d` (UP/DOWN, LEFT/RIGHT). -/
def opposite (d : Int) : Int :=
  if d = UP then DOWN else if d = DOWN then UP else if d = LEFT then RIGHT
  else if d = RIGHT then LEFT else d

/-- The arrow key that requests the direction `d`. -/
def arrow_key (d : Int) : Int :=
  if d = UP then KEY_UP else if d = DOWN then KEY_DOWN else if d = LEFT then KEY_LEFT
  else if d = RIGHT then KEY_RIGHT else ERR

/-- `d` is one of the four directions. -/
def is_direction (d : Int) : Prop := d = UP ∨ d = DOWN ∨ d = LEFT ∨ d = RIGHT

/-- The cell `q` lies in the interior of the board `W × H`. -/
def in_interior (W H : Int) (q : Position) : Prop :=
  1 ≤ q.x ∧ q.x ≤ W - 2 ∧ 1 ≤ q.y ∧ q.y ≤ H - 2

/-- No segment of the snake (index `0 ≤ i < length`) is at `q`. -/
def off_snake (snake : Snake) (q : Position) : Prop :=
  ∀ i : Nat, (i : Int) < snake.length → snake.position i ≠ q

/-- Round `n` (counted from 0) of a `generate_food` that starts after `k` calls
of `rand()` draws a cell that is on no segment of the snake. -/
def round_is_free (W H : Int) (rng : Nat → Nat) (snake : Snake) (k n : Nat) : Prop :=
  scan_segments snake.position (draw_food W H rng (k + 2 * n)) snake.length.toNat 0 = false

/-- A snake of length 3 heading right, used to instantiate the theorems. -/
def sample_snake : Snake :=
  { position := fun i => ⟨10 - i, 10⟩, length := 3, direction := RIGHT, score := 0 }

/-- A running game on `sample_snake` with the food one cell ahead of the head. -/
def sample_game : Game :=
  { snake := sample_snake, food := ⟨11, 10⟩, game_over := false, rand_calls := 0 }

/-- A random stream that always yields 5. -/
def sample_rng : Nat → Nat := fun _ => 5

/-- A memory for `Snake snake;` whose words are all zero. -/
def zero_memory : Snake :=
  { position := fun _ => ⟨0, 0⟩, length := 0, direction := 0, score := 0 }

/-- A random stream that always yields 0. -/
def zero_rng : Nat → Nat := fun _ => 0

/-- The first test of `is_collision` (the collision with the walls), on the head. -/
def wall_collision (W H : Int) (head : Position) : Bool :=
  decide (head.x ≤ 0 ∨ head.x ≥ W - 1 ∨ head.y ≤ 0 ∨ head.y ≥ H - 1)

/-- The cell `q` is on the border ring of the board `W × H`. -/
def on_border_ring (W H : Int) (q : Position) : Prop :=
  q.x = 0 ∨ q.x = W - 1 ∨ q.y = 0 ∨ q.y = H - 1

/-- The cell `q` is on the board `W × H`, border ring included. -/
def on_board (W H : Int) (q : Position) : Prop :=
  0 ≤ q.x ∧ q.x ≤ W - 1 ∧ 0 ≤ q.y ∧ q.y ≤ H - 1

/-- The cells `a` and `b` are orthogonal neighbours: they differ by exactly 1 in
exactly one coordinate. -/
def adjacent (a b : Position) : Prop :=
  (a.y = b.y ∧ (a.x = b.x + 1 ∨ a.x + 1 = b.x)) ∨ (a.x = b.x ∧ (a.y = b.y + 1 ∨ a.y + 1 = b.y))

/-- What every snake of a run satisfies at the end of a round: at least three
cells, the score tied to the length, a direction among the four, the head one step
ahead of `position[1]` in that direction, and every cell but possibly the last one
next to its predecessor. -/
def well_formed (snake : Snake) : Prop :=
  3 ≤ snake.length ∧ snake.score = 10 * (snake.length - 3) ∧ is_direction snake.direction ∧
  snake.position 0 = move_head snake.direction (snake.position 1) ∧
  ∀ j : Nat, 1 ≤ j → (j : Int) + 1 < snake.length →
    adjacent (snake.position j) (snake.position (j - 1))

/-- The state of `main` after `initialize_game` and `t` rounds of the loop in which
`getch()` gave no key; `none` when the loop has stopped before round `t` or a round
did not return. -/
def no_key_run (W H : Int) (rng : Nat → Nat) (fuel : Nat) (mem : Snake) : Nat → Option Game
  | 0 => initialize_game W H rng fuel mem
  | t + 1 =>
    match no_key_run W H rng fuel mem t with
    | none => none
    | some g => if g.game_over then none else tick W H rng fuel ERR g

/-- A random stream whose draws put each new food one cell to the right of the
last one on a 300 × 10 board: the even calls yield 150, 151, …, the odd calls 4. -/
def feeding_rng : Nat → Nat := fun k => if k % 2 = 0 then 150 + k / 2 else 4

/-! ## Lemmas on the loops -/

theorem position_eq_iff (a b : Position) : a = b ↔ a.x = b.x ∧ a.y = b.y := by
  cases a; cases b; simp

theorem shift_body_apply (n : Nat) (p : Nat → Position) (j : Nat) :
    shift_body p n j = if 1 ≤ j ∧ j ≤ n then p (j - 1) else p j := by
  induction n generalizing p with
  | zero =>
    have h : ¬ (1 ≤ j ∧ j ≤ 0) := by omega
    rw [if_neg h, shift_body]
  | succ n ih =>
    rw [shift_body, ih]
    by_cases h1 : 1 ≤ j ∧ j ≤ n
    · have h2 : 1 ≤ j ∧ j ≤ n + 1 := by omega
      have h3 : j - 1 ≠ n + 1 := by omega
      simp [h1, h2, Function.update_noteq h3]
    · by_cases h4 : j = n + 1
      · subst h4
        simp [h1]
      · have h5 : ¬ (1 ≤ j ∧ j ≤ n + 1) := by omega
        simp [h1, h5, Function.update_noteq h4]

theorem scan_segments_iff (p : Nat → Position) (t : Position) (n i : Nat) :
    scan_segments p t n i = true ↔ ∃ j : Nat, i ≤ j ∧ j < i + n ∧ p j = t := by
  induction n generalizing i with
  | zero =>
    simp only [scan_segments]
    constructor
    · intro h; cases h
    · rintro ⟨j, h1, h2, _⟩; omega
  | succ n ih =>
    rw [scan_segments]
    by_cases h : (p i).x = t.x ∧ (p i).y = t.y
    · simp only [h, and_self, if_true, true_iff]
      exact ⟨i, le_refl i, by omega, (position_eq_iff _ _).2 h⟩
    · rw [if_neg h, ih]
      constructor
      · rintro ⟨j, h1, h2, h3⟩
        exact ⟨j, by omega, by omega, h3⟩
      · rintro ⟨j, h1, h2, h3⟩
        have hne : j ≠ i := by
          rintro rfl
          exact h ((position_eq_iff _ _).1 h3)
        exact ⟨j, by omega, by omega, h3⟩

theorem scan_segments_false_iff (p : Nat → Position) (t : Position) (n i : Nat) :
    scan_segments p t n i = false ↔ ∀ j : Nat, i ≤ j → j < i + n → p j ≠ t := by
  rw [← Bool.not_eq_true, scan_segments_iff]
  constructor
  · intro h j h1 h2 h3
    exact h ⟨j, h1, h2, h3⟩
  · rintro h ⟨j, h1, h2, h3⟩
    exact h j h1 h2 h3

theorem update_snake_position (snake : Snake) (j : Nat) :
    (update_snake snake).position j =
      if j = 0 then move_head snake.direction (snake.position 0)
      else if (j : Int) < snake.length then snake.position (j - 1) else snake.position j := by
  unfold update_snake
  by_cases h0 : j = 0
  · subst h0
    simp [shift_body_apply]
  · simp only [Function.update_noteq h0, if_neg h0, shift_body_apply]
    by_cases h1 : (j : Int) < snake.length
    · have h2 : 1 ≤ j ∧ j ≤ (snake.length - 1).toNat := by omega
      rw [if_pos h2, if_pos h1]
    · have h2 : ¬ (1 ≤ j ∧ j ≤ (snake.length - 1).toNat) := by omega
      rw [if_neg h2, if_neg h1]

/-! ## Lemmas on `generate_food` and on one tick -/

theorem scan_false_iff_off_snake (snake : Snake) (q : Position) :
    scan_segments snake.position q snake.length.toNat 0 = false ↔ off_snake snake q := by
  rw [scan_segments_false_iff]
  constructor
  · intro h i hi
    exact h i (Nat.zero_le i) (by omega)
  · intro h j _ hj
    exact h j (by omega)

theorem draw_food_in_interior (W H : Int) (hW : 3 ≤ W) (hH : 3 ≤ H) (rng : Nat → Nat)
    (k : Nat) : in_interior W H (draw_food W H rng k) := by
  have hx0 : 0 ≤ Int.tmod (rng k) (W - 2) := Int.tmod_nonneg _ (Int.ofNat_nonneg _)
  have hx1 : Int.tmod (rng k) (W - 2) < W - 2 := Int.tmod_lt_of_pos _ (by omega)
  have hy0 : 0 ≤ Int.tmod (rng (k + 1)) (H - 2) := Int.tmod_nonneg _ (Int.ofNat_nonneg _)
  have hy1 : Int.tmod (rng (k + 1)) (H - 2) < H - 2 := Int.tmod_lt_of_pos _ (by omega)
  unfold in_interior draw_food
  dsimp only
  omega

/-- What a returning `generate_food` has done: it stopped in some round `n < fuel`
whose draw is on no segment, after two calls of `rand()` per round. -/
theorem generate_food_some (W H : Int) (rng : Nat → Nat) (snake : Snake) (fuel k : Nat)
    (food : Position) (k1 : Nat)
    (h : generate_food W H rng snake fuel k = some (food, k1)) :
    W - 2 ≠ 0 ∧ H - 2 ≠ 0 ∧ ∃ n : Nat, n < fuel ∧ food = draw_food W H rng (k + 2 * n) ∧
      k1 = k + 2 * n + 2 ∧ off_snake snake food := by
  induction fuel generalizing k with
  | zero => simp [generate_food] at h
  | succ fuel ih =>
    rw [generate_food] at h
    by_cases hz : W - 2 = 0 ∨ H - 2 = 0
    · rw [if_pos hz] at h
      cases h
    · rw [if_neg hz] at h
      dsimp only at h
      have hz2 : W - 2 ≠ 0 ∧ H - 2 ≠ 0 := by
        constructor
        · exact fun e => hz (Or.inl e)
        · exact fun e => hz (Or.inr e)
      cases hs : scan_segments snake.position (draw_food W H rng k) snake.length.toNat 0 with
      | true =>
        rw [hs] at h
        simp only [if_true] at h
        obtain ⟨_, _, n, hn, hf, hk, hoff⟩ := ih (k + 2) h
        refine ⟨hz2.1, hz2.2, n + 1, by omega, ?_, by omega, hoff⟩
        rw [hf]
        congr 1
        omega
      | false =>
        rw [hs] at h
        simp only [Bool.false_eq_true, if_false, Option.some.injEq, Prod.mk.injEq] at h
        refine ⟨hz2.1, hz2.2, 0, by omega, h.1.symm, by omega, ?_⟩
        rw [← h.1]
        exact (scan_false_iff_off_snake snake _).1 hs

/-- A `generate_food` returns as soon as some round draws a free cell: fuel above
the number of that round is enough. -/
theorem generate_food_returns (W H : Int) (hW : W - 2 ≠ 0) (hH : H - 2 ≠ 0)
    (rng : Nat → Nat) (snake : Snake) (n k fuel : Nat) (hfuel : n < fuel)
    (hfree : round_is_free W H rng snake k n) :
    ∃ r, generate_food W H rng snake fuel k = some r := by
  induction n generalizing k fuel with
  | zero =>
    obtain ⟨f, rfl⟩ : ∃ f, fuel = f + 1 := ⟨fuel - 1, by omega⟩
    have hz : ¬ (W - 2 = 0 ∨ H - 2 = 0) := by
      rintro (e | e)
      · exact hW e
      · exact hH e
    unfold round_is_free at hfree
    rw [generate_food, if_neg hz]
    dsimp only
    rw [show k + 2 * 0 = k from rfl] at hfree
    rw [hfree]
    exact ⟨_, rfl⟩
  | succ n ih =>
    obtain ⟨f, rfl⟩ : ∃ f, fuel = f + 1 := ⟨fuel - 1, by omega⟩
    have hz : ¬ (W - 2 = 0 ∨ H - 2 = 0) := by
      rintro (e | e)
      · exact hW e
      · exact hH e
    rw [generate_food, if_neg hz]
    dsimp only
    cases hs : scan_segments snake.position (draw_food W H rng k) snake.length.toNat 0 with
    | true =>
      simp only [if_true]
      apply ih (k + 2) f (by omega)
      unfold round_is_free at hfree ⊢
      rw [show k + 2 + 2 * n = k + 2 * (n + 1) by omega]
      exact hfree
    | false => exact ⟨(draw_food W H rng k, k + 2), by simp⟩

theorem handle_key_position (ch : Int) (snake : Snake) (game_over : Bool) :
    (handle_key ch snake game_over).1.position = snake.position := by
  unfold handle_key
  repeat' split
  all_goals rfl

theorem handle_key_length (ch : Int) (snake : Snake) (game_over : Bool) :
    (handle_key ch snake game_over).1.length = snake.length := by
  unfold handle_key
  repeat' split
  all_goals rfl

theorem handle_key_score (ch : Int) (snake : Snake) (game_over : Bool) :
    (handle_key ch snake game_over).1.score = snake.score := by
  unfold handle_key
  repeat' split
  all_goals rfl

theorem advanced_length (ch : Int) (g : Game) : (advanced ch g).length = g.snake.length :=
  handle_key_length ch g.snake g.game_over

theorem advanced_score (ch : Int) (g : Game) : (advanced ch g).score = g.snake.score :=
  handle_key_score ch g.snake g.game_over

theorem advanced_position (ch : Int) (g : Game) (j : Nat) :
    (advanced ch g).position j =
      if j = 0 then move_head (handle_key ch g.snake g.game_over).1.direction (g.snake.position 0)
      else if (j : Int) < g.snake.length then g.snake.position (j - 1)
      else g.snake.position j := by
  unfold advanced
  rw [update_snake_position, handle_key_position, handle_key_length]

/-- A tick in which the food is not eaten always returns. -/
theorem tick_not_eaten (W H : Int) (rng : Nat → Nat) (fuel : Nat) (ch : Int) (g : Game)
    (h : is_food_eaten (advanced ch g) g.food = false) :
    tick W H rng fuel ch g =
      some ⟨advanced ch g, g.food, flag_after_collision W H ch g, g.rand_calls⟩ := by
  unfold tick
  dsimp only
  rw [h]
  rfl

/-- A tick in which the food is eaten returns what its `generate_food` returns. -/
theorem tick_eaten (W H : Int) (rng : Nat → Nat) (fuel : Nat) (ch : Int) (g g1 : Game)
    (h : is_food_eaten (advanced ch g) g.food = true)
    (ht : tick W H rng fuel ch g = some g1) :
    ∃ food k, generate_food W H rng (grow (advanced ch g)) fuel g.rand_calls = some (food, k) ∧
      g1 = ⟨grow (advanced ch g), food, flag_after_collision W H ch g, k⟩ := by
  unfold tick at ht
  dsimp only at ht
  rw [h] at ht
  simp only [if_true] at ht
  cases hg : generate_food W H rng (grow (advanced ch g)) fuel g.rand_calls with
  | none =>
    rw [hg] at ht
    cases ht
  | some r =>
    obtain ⟨food, k⟩ := r
    rw [hg] at ht
    simp only [Option.some.injEq] at ht
    exact ⟨food, k, rfl, ht.symm⟩

/-- A tick in which the food is eaten returns as soon as some round of its
`generate_food` draws a free cell. -/
theorem tick_eaten_returns (W H : Int) (hW : W - 2 ≠ 0) (hH : H - 2 ≠ 0) (rng : Nat → Nat)
    (ch : Int) (g : Game) (n fuel : Nat) (hfuel : n < fuel)
    (hfree : round_is_free W H rng (grow (advanced ch g)) g.rand_calls n) :
    ∃ g1, tick W H rng fuel ch g = some g1 := by
  obtain ⟨⟨food, k⟩, hr⟩ := generate_food_returns W H hW hH rng _ n g.rand_calls fuel hfuel hfree
  unfold tick
  dsimp only
  split
  · rw [hr]
    exact ⟨_, rfl⟩
  · exact ⟨_, rfl⟩

theorem initialize_game_some (W H : Int) (rng : Nat → Nat) (fuel : Nat) (mem : Snake) (g : Game)
    (h : initialize_game W H rng fuel mem = some g) :
    ∃ food k, generate_food W H rng (initialize_snake W H mem) fuel 0 = some (food, k) ∧
      g = ⟨initialize_snake W H mem, food, false, k⟩ := by
  unfold initialize_game at h
  cases hg : generate_food W H rng (initialize_snake W H mem) fuel 0 with
  | none =>
    rw [hg] at h
    cases h
  | some r =>
    obtain ⟨food, k⟩ := r
    rw [hg] at h
    simp only [Option.some.injEq] at h
    exact ⟨food, k, rfl, h.symm⟩

theorem is_food_eaten_true_iff (snake : Snake) (food : Position) :
    is_food_eaten snake food = true ↔ snake.position 0 = food := by
  unfold is_food_eaten
  rw [decide_eq_true_iff, position_eq_iff]

theorem is_collision_true_iff (W H : Int) (snake : Snake) :
    is_collision W H snake = true ↔
      (((snake.position 0).x ≤ 0 ∨ (snake.position 0).x ≥ W - 1 ∨
          (snake.position 0).y ≤ 0 ∨ (snake.position 0).y ≥ H - 1) ∨
        ∃ i : Nat, 1 ≤ i ∧ (i : Int) < snake.length ∧
          snake.position 0 = snake.position i) := by
  unfold is_collision
  by_cases hw : (snake.position 0).x ≤ 0 ∨ (snake.position 0).x ≥ W - 1 ∨
      (snake.position 0).y ≤ 0 ∨ (snake.position 0).y ≥ H - 1
  · rw [if_pos hw]
    exact ⟨fun _ => Or.inl hw, fun _ => rfl⟩
  · rw [if_neg hw, scan_segments_iff]
    constructor
    · rintro ⟨j, hj1, hj2, hj3⟩
      exact Or.inr ⟨j, hj1, by omega, hj3.symm⟩
    · rintro (h | ⟨i, hi1, hi2, hi3⟩)
      · exact absurd h hw
      · exact ⟨i, hi1, by omega, hi3.symm⟩

theorem is_food_eaten_false_iff (snake : Snake) (food : Position) :
    is_food_eaten snake food = false ↔ snake.position 0 ≠ food := by
  unfold is_food_eaten
  rw [decide_eq_false_iff_not]
  exact not_congr (position_eq_iff _ _).symm

/-- One tick keeps the food off the snake. -/
theorem tick_keeps_food_off_snake (W H : Int) (rng : Nat → Nat) (fuel : Nat) (ch : Int)
    (g g1 : Game) (hoff : off_snake g.snake g.food)
    (ht : tick W H rng fuel ch g = some g1) : off_snake g1.snake g1.food := by
  cases he : is_food_eaten (advanced ch g) g.food with
  | true =>
    obtain ⟨food, k, hg, rfl⟩ := tick_eaten W H rng fuel ch g g1 he ht
    exact (generate_food_some W H rng _ fuel _ food k hg).2.2.choose_spec.2.2.2
  | false =>
    rw [tick_not_eaten W H rng fuel ch g he] at ht
    simp only [Option.some.injEq] at ht
    subst ht
    intro i hi
    show (advanced ch g).position i ≠ g.food
    have hi2 : (i : Int) < g.snake.length := by
      rw [← advanced_length ch g]
      exact hi
    by_cases h0 : i = 0
    · subst h0
      exact (is_food_eaten_false_iff _ _).1 he
    · rw [advanced_position, if_neg h0, if_pos hi2]
      exact hoff (i - 1) (by omega)

theorem initialize_snake_position (W H : Int) (mem : Snake) (j : Nat) :
    (initialize_snake W H mem).position j =
      if j = 0 then ⟨Int.tdiv W 2, Int.tdiv H 2⟩
      else if j = 1 then ⟨Int.tdiv W 2 - 1, Int.tdiv H 2⟩
      else if j = 2 then ⟨Int.tdiv W 2 - 2, Int.tdiv H 2⟩
      else mem.position j := by
  have h2 : (SNAKE_INITIAL_LENGTH - 1).toNat = 2 := by decide
  unfold initialize_snake
  dsimp only
  rw [h2]
  simp only [init_body, Function.update_apply]
  by_cases h0 : j = 0
  · subst h0
    simp
  · by_cases h1 : j = 1
    · subst h1
      simp
    · by_cases h2 : j = 2
      · subst h2
        simp
      · have h3 : ¬ j = 1 + 1 := by omega
        simp [h0, h1, h2, h3]

theorem initialize_game_returns (W H : Int) (hW : W - 2 ≠ 0) (hH : H - 2 ≠ 0)
    (rng : Nat → Nat) (mem : Snake) (n fuel : Nat) (hfuel : n < fuel)
    (hfree : round_is_free W H rng (initialize_snake W H mem) 0 n) :
    ∃ g, initialize_game W H rng fuel mem = some g := by
  obtain ⟨⟨food, k⟩, hr⟩ := generate_food_returns W H hW hH rng _ n 0 fuel hfuel hfree
  unfold initialize_game
  rw [hr]
  exact ⟨_, rfl⟩

theorem handle_key_flag (ch : Int) (snake : Snake) (game_over : Bool) :
    (handle_key ch snake game_over).2 = (decide (ch = KEY_Q) || game_over) := by
  unfold handle_key
  by_cases h1 : ch = KEY_UP
  · subst h1
    simp [KEY_UP, KEY_Q]
  by_cases h2 : ch = KEY_DOWN
  · subst h2
    simp [KEY_UP, KEY_DOWN, KEY_Q]
  by_cases h3 : ch = KEY_LEFT
  · subst h3
    simp [KEY_UP, KEY_DOWN, KEY_LEFT, KEY_Q]
  by_cases h4 : ch = KEY_RIGHT
  · subst h4
    simp [KEY_UP, KEY_DOWN, KEY_LEFT, KEY_RIGHT, KEY_Q]
  by_cases h5 : ch = KEY_Q
  · subst h5
    simp [KEY_UP, KEY_DOWN, KEY_LEFT, KEY_RIGHT, KEY_Q]
  · simp [h1, h2, h3, h4, h5]

theorem tick_game_over (W H : Int) (rng : Nat → Nat) (fuel : Nat) (ch : Int) (g g1 : Game)
    (ht : tick W H rng fuel ch g = some g1) :
    g1.game_over = flag_after_collision W H ch g := by
  cases he : is_food_eaten (advanced ch g) g.food with
  | true =>
    obtain ⟨food, k, _, rfl⟩ := tick_eaten W H rng fuel ch g g1 he ht
    rfl
  | false =>
    rw [tick_not_eaten W H rng fuel ch g he] at ht
    simp only [Option.some.injEq] at ht
    subst ht
    rfl

theorem handle_key_quit (snake : Snake) (game_over : Bool) :
    handle_key KEY_Q snake game_over = (snake, true) := by
  unfold handle_key
  simp [KEY_UP, KEY_DOWN, KEY_LEFT, KEY_RIGHT, KEY_Q]

theorem handle_key_no_key (snake : Snake) (game_over : Bool) :
    handle_key ERR snake game_over = (snake, game_over) := by
  unfold handle_key
  simp [KEY_UP, KEY_DOWN, KEY_LEFT, KEY_RIGHT, KEY_Q, ERR]

/-! ## A run that eats at every tick -/

theorem generate_food_first_round (W H : Int) (hW : W - 2 ≠ 0) (hH : H - 2 ≠ 0)
    (rng : Nat → Nat) (snake : Snake) (fuel k : Nat)
    (hoff : off_snake snake (draw_food W H rng k)) :
    generate_food W H rng snake (fuel + 1) k = some (draw_food W H rng k, k + 2) := by
  have hz : ¬ (W - 2 = 0 ∨ H - 2 = 0) := by
    rintro (e | e)
    · exact hW e
    · exact hH e
  rw [generate_food, if_neg hz]
  dsimp only
  rw [(scan_false_iff_off_snake snake _).2 hoff]
  rfl

theorem tick_eaten_eq (W H : Int) (rng : Nat → Nat) (fuel : Nat) (ch : Int) (g : Game)
    (food : Position) (k : Nat)
    (he : is_food_eaten (advanced ch g) g.food = true)
    (hg : generate_food W H rng (grow (advanced ch g)) fuel g.rand_calls = some (food, k)) :
    tick W H rng fuel ch g =
      some ⟨grow (advanced ch g), food, flag_after_collision W H ch g, k⟩ := by
  unfold tick
  dsimp only
  rw [he, hg]
  rfl

theorem feeding_draw (n : Nat) (hn : n ≤ 97) :
    draw_food 300 10 feeding_rng (2 * n + 2) = ⟨152 + (n : Int), 5⟩ := by
  have h1 : feeding_rng (2 * n + 2) = 151 + n := by
    unfold feeding_rng
    rw [if_pos (by omega)]
    omega
  have h2 : feeding_rng (2 * n + 2 + 1) = 4 := by
    unfold feeding_rng
    rw [if_neg (by omega)]
  unfold draw_food
  rw [h1, h2, Int.tmod_eq_of_lt (by omega) (by omega), Int.tmod_eq_of_lt (by decide) (by decide)]
  rw [position_eq_iff]
  constructor
  · show ((151 + n : Nat) : Int) + 1 = 152 + (n : Int)
    omega
  · rfl

/-- The state after `n ≤ 98` ticks without a key on a 300 × 10 board with the
stream `feeding_rng`: every tick has eaten. -/
theorem feeding_run (n : Nat) (hn : n ≤ 98) :
    ∃ g, Reachable 300 10 feeding_rng zero_memory g ∧ g.game_over = false ∧
      g.snake.length = 3 + (n : Int) ∧ g.snake.direction = RIGHT ∧
      g.snake.score = 10 * (n : Int) ∧
      g.snake.position 0 = ⟨150 + (n : Int), 5⟩ ∧ g.food = ⟨151 + (n : Int), 5⟩ ∧
      g.rand_calls = 2 * n + 2 ∧
      ∀ i : Nat, 1 ≤ i → (g.snake.position i).x < 150 + (n : Int) := by
  induction n with
  | zero =>
    have h0 : initialize_game 300 10 feeding_rng 1 zero_memory =
        some ⟨initialize_snake 300 10 zero_memory, ⟨151, 5⟩, false, 2⟩ := rfl
    refine ⟨_, Reachable.init 1 _ h0, rfl, rfl, rfl, rfl, rfl, rfl, rfl, ?_⟩
    intro i hi
    show ((initialize_snake 300 10 zero_memory).position i).x < 150 + ((0 : Nat) : Int)
    rw [initialize_snake_position]
    have h150 : Int.tdiv 300 2 = 150 := by decide
    rw [h150]
    by_cases h1 : i = 1
    · subst h1
      decide
    · by_cases h2 : i = 2
      · subst h2
        decide
      · rw [if_neg (by omega), if_neg h1, if_neg h2]
        show (0 : Int) < 150 + ((0 : Nat) : Int)
        decide
  | succ n ih =>
    obtain ⟨g, hr, hover, hlen, hdir, hscore, hhead, hfood, hcalls, hbody⟩ := ih (by omega)
    have hkey : handle_key ERR g.snake g.game_over = (g.snake, g.game_over) :=
      handle_key_no_key g.snake g.game_over
    have hpos0 : (advanced ERR g).position 0 = ⟨151 + (n : Int), 5⟩ := by
      rw [advanced_position, if_pos rfl, hkey, hdir, hhead]
      rw [position_eq_iff]
      constructor
      · show 150 + (n : Int) + 1 = 151 + (n : Int)
        omega
      · rfl
    have hposi : ∀ i : Nat, 1 ≤ i → ((advanced ERR g).position i).x < 151 + (n : Int) := by
      intro i hi
      rw [advanced_position, if_neg (by omega)]
      split
      · by_cases h1 : i = 1
        · subst h1
          rw [hhead]
          show 150 + (n : Int) < 151 + (n : Int)
          omega
        · have := hbody (i - 1) (by omega)
          omega
      · have := hbody i hi
        omega
    have he : is_food_eaten (advanced ERR g) g.food = true := by
      rw [is_food_eaten_true_iff, hpos0, hfood]
    have hcol : is_collision 300 10 (advanced ERR g) = false := by
      rw [← Bool.not_eq_true, is_collision_true_iff, hpos0]
      rintro (h | ⟨i, hi1, _, hi3⟩)
      · dsimp only at h
        omega
      · have := hposi i hi1
        rw [← hi3] at this
        dsimp only at this
        omega
    have hflag : flag_after_collision 300 10 ERR g = false := by
      unfold flag_after_collision
      rw [hcol, hkey, hover]
      rfl
    have hoff : off_snake (grow (advanced ERR g)) (draw_food 300 10 feeding_rng g.rand_calls) := by
      rw [hcalls, feeding_draw n (by omega)]
      intro i _ hp
      have hx : ((advanced ERR g).position i).x = 152 + (n : Int) := by
        have := congrArg Position.x hp
        exact this
      by_cases h0 : i = 0
      · subst h0
        rw [hpos0] at hx
        dsimp only at hx
        omega
      · have := hposi i (by omega)
        omega
    have hg := generate_food_first_round 300 10 (by decide) (by decide) feeding_rng
      (grow (advanced ERR g)) 0 g.rand_calls hoff
    have ht := tick_eaten_eq 300 10 feeding_rng 1 ERR g _ _ he hg
    rw [hflag, hcalls, feeding_draw n (by omega)] at ht
    refine ⟨_, Reachable.step 1 ERR g _ hr hover ht, rfl, ?_, ?_, ?_, ?_, ?_, ?_, ?_⟩
    · show (advanced ERR g).length + 1 = 3 + ((n + 1 : Nat) : Int)
      rw [advanced_length, hlen]
      push_cast
      omega
    · show (handle_key ERR g.snake g.game_over).1.direction = RIGHT
      rw [hkey]
      exact hdir
    · show (advanced ERR g).score + 10 = 10 * ((n + 1 : Nat) : Int)
      rw [advanced_score, hscore]
      push_cast
      omega
    · show (advanced ERR g).position 0 = ⟨150 + ((n + 1 : Nat) : Int), 5⟩
      rw [hpos0, position_eq_iff]
      constructor
      · show 151 + (n : Int) = 150 + ((n + 1 : Nat) : Int)
        push_cast
        omega
      · rfl
    · rw [position_eq_iff]
      constructor
      · show 152 + (n : Int) = 151 + ((n + 1 : Nat) : Int)
        push_cast
        omega
      · rfl
    · show 2 * n + 2 + 2 = 2 * (n + 1) + 2
      omega
    · intro i hi
      have := hposi i hi
      show ((advanced ERR g).position i).x < 150 + ((n + 1 : Nat) : Int)
      push_cast
      omega

/-! ## Lemmas on the walls, the steering and the shape of the snake -/

theorem wall_collision_true_iff (W H : Int) (head : Position) :
    wall_collision W H head = true ↔
      (head.x ≤ 0 ∨ head.x ≥ W - 1 ∨ head.y ≤ 0 ∨ head.y ≥ H - 1) := by
  unfold wall_collision
  rw [decide_eq_true_iff]

theorem is_collision_eq (W H : Int) (snake : Snake) :
    is_collision W H snake =
      (wall_collision W H (snake.position 0) ||
        scan_segments snake.position (snake.position 0) (snake.length - 1).toNat 1) := by
  unfold is_collision wall_collision
  by_cases hw : (snake.position 0).x ≤ 0 ∨ (snake.position 0).x ≥ W - 1 ∨
      (snake.position 0).y ≤ 0 ∨ (snake.position 0).y ≥ H - 1
  · rw [if_pos hw, decide_eq_true hw]
    rfl
  · rw [if_neg hw, decide_eq_false hw]
    rfl

theorem is_collision_false_interior (W H : Int) (snake : Snake)
    (h : is_collision W H snake = false) : in_interior W H (snake.position 0) := by
  rw [is_collision_eq, Bool.or_eq_false_iff] at h
  have hw := h.1
  rw [← Bool.not_eq_true, wall_collision_true_iff] at hw
  unfold in_interior
  omega

theorem advanced_direction (ch : Int) (g : Game) :
    (advanced ch g).direction = (handle_key ch g.snake g.game_over).1.direction := rfl

/-- The snake at the end of a returning tick is the advanced snake, grown or not. -/
theorem tick_snake_cases (W H : Int) (rng : Nat → Nat) (fuel : Nat) (ch : Int) (g g1 : Game)
    (ht : tick W H rng fuel ch g = some g1) :
    (is_food_eaten (advanced ch g) g.food = false ∧ g1.snake = advanced ch g ∧
        g1.food = g.food) ∨
    (is_food_eaten (advanced ch g) g.food = true ∧ g1.snake = grow (advanced ch g)) := by
  cases he : is_food_eaten (advanced ch g) g.food with
  | true =>
    obtain ⟨food, k, _, rfl⟩ := tick_eaten W H rng fuel ch g g1 he ht
    exact Or.inr ⟨rfl, rfl⟩
  | false =>
    rw [tick_not_eaten W H rng fuel ch g he] at ht
    simp only [Option.some.injEq] at ht
    subst ht
    exact Or.inl ⟨rfl, rfl, rfl⟩

theorem tick_position (W H : Int) (rng : Nat → Nat) (fuel : Nat) (ch : Int) (g g1 : Game)
    (ht : tick W H rng fuel ch g = some g1) (j : Nat) :
    g1.snake.position j = (advanced ch g).position j := by
  rcases tick_snake_cases W H rng fuel ch g g1 ht with ⟨_, h, _⟩ | ⟨_, h⟩
  · rw [h]
  · rw [h]
    rfl

/-- The `switch (ch)` keeps the direction among the four and never turns it into
its opposite. -/
theorem handle_key_steers (ch : Int) (snake : Snake) (game_over : Bool)
    (hd : is_direction snake.direction) :
    is_direction (handle_key ch snake game_over).1.direction ∧
    (handle_key ch snake game_over).1.direction ≠ opposite snake.direction := by
  unfold handle_key is_direction opposite
  by_cases h1 : ch = KEY_UP
  · rw [if_pos h1]
    rcases hd with h | h | h | h <;> simp [h, UP, DOWN, LEFT, RIGHT]
  rw [if_neg h1]
  by_cases h2 : ch = KEY_DOWN
  · rw [if_pos h2]
    rcases hd with h | h | h | h <;> simp [h, UP, DOWN, LEFT, RIGHT]
  rw [if_neg h2]
  by_cases h3 : ch = KEY_LEFT
  · rw [if_pos h3]
    rcases hd with h | h | h | h <;> simp [h, UP, DOWN, LEFT, RIGHT]
  rw [if_neg h3]
  by_cases h4 : ch = KEY_RIGHT
  · rw [if_pos h4]
    rcases hd with h | h | h | h <;> simp [h, UP, DOWN, LEFT, RIGHT]
  rw [if_neg h4]
  by_cases h5 : ch = KEY_Q
  · rw [if_pos h5]
    rcases hd with h | h | h | h <;> simp [h, UP, DOWN, LEFT, RIGHT]
  · rw [if_neg h5]
    rcases hd with h | h | h | h <;> simp [h, UP, DOWN, LEFT, RIGHT]

theorem move_head_adjacent (d : Int) (hd : is_direction d) (q : Position) :
    adjacent q (move_head d q) := by
  unfold adjacent
  rcases hd with h | h | h | h <;> subst h <;> simp [move_head, UP, DOWN, LEFT, RIGHT]

/-- A step in a direction that is not the opposite of the last one does not lead
back to the cell behind. -/
theorem move_head_not_back (d e : Int) (hd : is_direction d) (he : is_direction e)
    (hne : e ≠ opposite d) (q : Position) : move_head e (move_head d q) ≠ q := by
  intro h
  rw [position_eq_iff] at h
  rcases hd with h1 | h1 | h1 | h1 <;> rcases he with h2 | h2 | h2 | h2 <;> subst h1 <;>
    subst h2 <;> simp [move_head, opposite, UP, DOWN, LEFT, RIGHT] at h hne <;> omega

/-- After `update_snake` every cell of a well formed snake is next to its
predecessor, the last one included. -/
theorem advanced_contiguous (ch : Int) (g : Game) (hwf : well_formed g.snake) (i : Nat)
    (h1 : 1 ≤ i) (hlt : (i : Int) < (advanced ch g).length) :
    adjacent ((advanced ch g).position i) ((advanced ch g).position (i - 1)) := by
  obtain ⟨_, _, hdir, _, hadj⟩ := hwf
  rw [advanced_length] at hlt
  by_cases hi : i = 1
  · subst hi
    rw [advanced_position, advanced_position, if_neg (by omega), if_pos hlt, if_pos rfl]
    exact move_head_adjacent _ (handle_key_steers ch g.snake g.game_over hdir).1 _
  · have hlt2 : ((i - 1 : Nat) : Int) < g.snake.length := by omega
    rw [advanced_position, advanced_position, if_neg (by omega), if_pos hlt,
      if_neg (by omega), if_pos hlt2]
    have := hadj (i - 1) (by omega) (by omega)
    exact this

theorem advanced_head_ahead (ch : Int) (g : Game) (hwf : well_formed g.snake) :
    (advanced ch g).position 0 =
      move_head (advanced ch g).direction ((advanced ch g).position 1) := by
  have h3 : ((1 : Nat) : Int) < g.snake.length := by
    have := hwf.1
    omega
  rw [advanced_position, advanced_position, if_pos rfl, if_neg (by omega), if_pos h3,
    advanced_direction]

theorem initialize_snake_well_formed (W H : Int) (mem : Snake) :
    well_formed (initialize_snake W H mem) := by
  have hlen : (3 : Int) ≤ SNAKE_INITIAL_LENGTH := by decide
  have hscore : (0 : Int) = 10 * (SNAKE_INITIAL_LENGTH - 3) := by decide
  refine ⟨hlen, hscore, Or.inr (Or.inr (Or.inr rfl)), ?_, ?_⟩
  · rw [initialize_snake_position, initialize_snake_position, if_pos rfl, if_neg (by omega),
      if_pos rfl]
    show (⟨Int.tdiv W 2, Int.tdiv H 2⟩ : Position) =
      move_head RIGHT ⟨Int.tdiv W 2 - 1, Int.tdiv H 2⟩
    rw [position_eq_iff]
    simp [move_head, UP, DOWN, LEFT, RIGHT]
  · intro j h1 hlt
    have hj : j = 1 := by
      have h3 : (initialize_snake W H mem).length = 3 := rfl
      omega
    subst hj
    rw [initialize_snake_position, initialize_snake_position, if_neg (by omega), if_pos rfl,
      if_pos rfl]
    unfold adjacent
    simp

theorem tick_well_formed (W H : Int) (rng : Nat → Nat) (fuel : Nat) (ch : Int) (g g1 : Game)
    (hwf : well_formed g.snake) (ht : tick W H rng fuel ch g = some g1) :
    well_formed g1.snake := by
  have hadv : well_formed (advanced ch g) ∧ ∀ i : Nat, 1 ≤ i →
      (i : Int) < (advanced ch g).length →
      adjacent ((advanced ch g).position i) ((advanced ch g).position (i - 1)) := by
    refine ⟨⟨?_, ?_, ?_, advanced_head_ahead ch g hwf, ?_⟩, advanced_contiguous ch g hwf⟩
    · rw [advanced_length]
      exact hwf.1
    · rw [advanced_length, advanced_score]
      exact hwf.2.1
    · rw [advanced_direction]
      exact (handle_key_steers ch g.snake g.game_over hwf.2.2.1).1
    · intro j h1 hlt
      exact advanced_contiguous ch g hwf j h1 (by omega)
  rcases tick_snake_cases W H rng fuel ch g g1 ht with ⟨_, h, _⟩ | ⟨_, h⟩
  · rw [h]
    exact hadv.1
  · rw [h]
    obtain ⟨⟨h3, hs, hd, hh, _⟩, hc⟩ := hadv
    refine ⟨?_, ?_, hd, hh, ?_⟩
    · show 3 ≤ (advanced ch g).length + 1
      omega
    · show (advanced ch g).score + 10 = 10 * ((advanced ch g).length + 1 - 3)
      omega
    · intro j h1 hlt
      have hlt2 : (j : Int) + 1 < (advanced ch g).length + 1 := hlt
      exact hc j h1 (by omega)

theorem reachable_well_formed (W H : Int) (rng : Nat → Nat) (mem : Snake) (g : Game)
    (hr : Reachable W H rng mem g) : well_formed g.snake := by
  induction hr with
  | init fuel g h =>
    obtain ⟨food, k, _, rfl⟩ := initialize_game_some W H rng fuel mem g h
    exact initialize_snake_well_formed W H mem
  | step fuel ch g g1 _ _ ht ih =>
    exact tick_well_formed W H rng fuel ch g g1 ih ht

/-! ## Lemmas on the run without a key -/

theorem center_bounds (W : Int) (hW : 3 ≤ W) :
    1 ≤ Int.tdiv W 2 ∧ Int.tdiv W 2 ≤ W - 2 ∧ 2 * Int.tdiv W 2 ≤ W ∧
      W ≤ 2 * Int.tdiv W 2 + 1 := by
  rw [Int.tdiv_eq_ediv (by omega) (by decide)]
  omega

theorem move_head_near (d : Int) (q : Position) :
    q.x - 1 ≤ (move_head d q).x ∧ (move_head d q).x ≤ q.x + 1 ∧
    q.y - 1 ≤ (move_head d q).y ∧ (move_head d q).y ≤ q.y + 1 := by
  unfold move_head
  split
  · dsimp only
    omega
  split
  · dsimp only
    omega
  split
  · dsimp only
    omega
  split
  · dsimp only
    omega
  · omega

theorem flag_after_collision_no_key (W H : Int) (g : Game) (hrun : g.game_over = false) :
    flag_after_collision W H ERR g = is_collision W H (advanced ERR g) := by
  unfold flag_after_collision
  rw [handle_key_no_key, hrun]
  cases is_collision W H (advanced ERR g) <;> rfl

/-- A step to the right of a snake whose head is at `(a, b)` in the interior rows
and whose cells `1 … length-2` are left of the head: the head goes to `(a+1, b)`,
the cells behind stay left of it, and `is_collision` is true exactly when the new
head has reached the right wall. -/
theorem straight_step (W H : Int) (g : Game) (a b : Int) (ha : 0 ≤ a) (hb1 : 1 ≤ b)
    (hb2 : b ≤ H - 2) (hdir : g.snake.direction = RIGHT)
    (hhead : g.snake.position 0 = ⟨a, b⟩)
    (hbody : ∀ i : Nat, 1 ≤ i → (i : Int) + 1 < g.snake.length → (g.snake.position i).x < a) :
    (advanced ERR g).position 0 = ⟨a + 1, b⟩ ∧
    (∀ i : Nat, 1 ≤ i → (i : Int) < g.snake.length → ((advanced ERR g).position i).x < a + 1) ∧
    (is_collision W H (advanced ERR g) = true ↔ a + 1 ≥ W - 1) := by
  have hkey : handle_key ERR g.snake g.game_over = (g.snake, g.game_over) :=
    handle_key_no_key g.snake g.game_over
  have hpos0 : (advanced ERR g).position 0 = ⟨a + 1, b⟩ := by
    rw [advanced_position, if_pos rfl, hkey, hdir, hhead]
    rfl
  have hposi : ∀ i : Nat, 1 ≤ i → (i : Int) < g.snake.length →
      ((advanced ERR g).position i).x < a + 1 := by
    intro i hi hlt
    rw [advanced_position, if_neg (by omega), if_pos hlt]
    by_cases h1 : i = 1
    · subst h1
      rw [hhead]
      show a < a + 1
      omega
    · have := hbody (i - 1) (by omega) (by omega)
      omega
  refine ⟨hpos0, hposi, ?_⟩
  rw [is_collision_true_iff, hpos0]
  dsimp only
  constructor
  · rintro (h | ⟨i, hi1, hi2, hi3⟩)
    · omega
    · rw [advanced_length] at hi2
      have hx := hposi i hi1 hi2
      rw [← hi3] at hx
      dsimp only at hx
      omega
  · intro h
    exact Or.inl (Or.inr (Or.inl h))

theorem no_key_run_reachable (W H : Int) (rng : Nat → Nat) (fuel : Nat) (mem : Snake)
    (t : Nat) (g : Game) (h : no_key_run W H rng fuel mem t = some g) :
    Reachable W H rng mem g := by
  induction t generalizing g with
  | zero => exact Reachable.init fuel g h
  | succ t ih =>
    rw [no_key_run] at h
    cases hp : no_key_run W H rng fuel mem t with
    | none =>
      rw [hp] at h
      cases h
    | some g0 =>
      rw [hp] at h
      dsimp only at h
      cases hover : g0.game_over with
      | true =>
        rw [hover] at h
        cases h
      | false =>
        rw [hover] at h
        exact Reachable.step fuel ERR g0 g (ih g0 hp) hover h

/-- A round of the run without a key, unfolded. -/
theorem no_key_run_succ (W H : Int) (rng : Nat → Nat) (fuel : Nat) (mem : Snake)
    (t : Nat) (g : Game) (h : no_key_run W H rng fuel mem (t + 1) = some g) :
    ∃ g0, no_key_run W H rng fuel mem t = some g0 ∧ g0.game_over = false ∧
      tick W H rng fuel ERR g0 = some g := by
  rw [no_key_run] at h
  cases hp : no_key_run W H rng fuel mem t with
  | none =>
    rw [hp] at h
    cases h
  | some g0 =>
    rw [hp] at h
    dsimp only at h
    cases hover : g0.game_over with
    | true =>
      rw [hover] at h
      cases h
    | false =>
      rw [hover] at h
      exact ⟨g0, rfl, hover, h⟩

/-- The state after `t` rounds without a key: the snake heads RIGHT with the head
at `(W/2 + t, H/2)`, not beyond the right wall, the cells behind are left of the
head, and the game is over exactly when the head is on the right wall. -/
theorem no_key_run_state (W H : Int) (hW : 3 ≤ W) (hH : 3 ≤ H) (rng : Nat → Nat)
    (fuel : Nat) (mem : Snake) (t : Nat) (g : Game)
    (h : no_key_run W H rng fuel mem t = some g) :
    g.snake.direction = RIGHT ∧
    g.snake.position 0 = ⟨Int.tdiv W 2 + (t : Int), Int.tdiv H 2⟩ ∧
    (∀ i : Nat, 1 ≤ i → (i : Int) + 1 < g.snake.length →
      (g.snake.position i).x < Int.tdiv W 2 + (t : Int)) ∧
    Int.tdiv W 2 + (t : Int) ≤ W - 1 ∧
    (g.game_over = true ↔ Int.tdiv W 2 + (t : Int) = W - 1) := by
  obtain ⟨hc1, hc2, hc3, hc4⟩ := center_bounds W hW
  obtain ⟨hd1, hd2, _, _⟩ := center_bounds H hH
  induction t generalizing g with
  | zero =>
    obtain ⟨food, k, _, rfl⟩ := initialize_game_some W H rng fuel mem g h
    refine ⟨rfl, ?_, ?_, ?_, ?_⟩
    · show (initialize_snake W H mem).position 0 = _
      rw [initialize_snake_position, if_pos rfl, position_eq_iff]
      constructor
      · show Int.tdiv W 2 = Int.tdiv W 2 + ((0 : Nat) : Int)
        omega
      · rfl
    · intro i h1 hlt
      have hi : i = 1 := by
        have h3 : (initialize_snake W H mem).length = 3 := rfl
        have hlt2 : (i : Int) + 1 < (initialize_snake W H mem).length := hlt
        omega
      subst hi
      show ((initialize_snake W H mem).position 1).x < _
      rw [initialize_snake_position, if_neg (by omega), if_pos rfl]
      show Int.tdiv W 2 - 1 < Int.tdiv W 2 + ((0 : Nat) : Int)
      omega
    · show Int.tdiv W 2 + ((0 : Nat) : Int) ≤ W - 1
      omega
    · show false = true ↔ Int.tdiv W 2 + ((0 : Nat) : Int) = W - 1
      constructor
      · intro hf
        cases hf
      · intro he
        omega
  | succ t ih =>
    obtain ⟨g0, hp, hover, ht⟩ := no_key_run_succ W H rng fuel mem t g h
    obtain ⟨hdir, hhead, hbody, hle, hiff⟩ := ih g0 hp
    have hlt : Int.tdiv W 2 + (t : Int) < W - 1 := by
      have hne : ¬ (Int.tdiv W 2 + (t : Int) = W - 1) := by
        intro he
        have := hiff.2 he
        rw [hover] at this
        cases this
      omega
    obtain ⟨hpos0, hposi, hcol⟩ := straight_step W H g0 (Int.tdiv W 2 + (t : Int))
      (Int.tdiv H 2) (by omega) hd1 hd2 hdir hhead hbody
    have hflag : g.game_over = is_collision W H (advanced ERR g0) := by
      rw [tick_game_over W H rng fuel ERR g0 g ht, flag_after_collision_no_key W H g0 hover]
    have hlen : g.snake.length ≤ g0.snake.length + 1 ∧
        g.snake.direction = (advanced ERR g0).direction := by
      rcases tick_snake_cases W H rng fuel ERR g0 g ht with ⟨_, hs, _⟩ | ⟨_, hs⟩
      · rw [hs, advanced_length]
        exact ⟨by omega, rfl⟩
      · rw [hs]
        constructor
        · show (advanced ERR g0).length + 1 ≤ g0.snake.length + 1
          rw [advanced_length]
        · rfl
    refine ⟨?_, ?_, ?_, ?_, ?_⟩
    · rw [hlen.2, advanced_direction, handle_key_no_key]
      exact hdir
    · rw [tick_position W H rng fuel ERR g0 g ht, hpos0, position_eq_iff]
      constructor
      · show Int.tdiv W 2 + (t : Int) + 1 = Int.tdiv W 2 + ((t + 1 : Nat) : Int)
        push_cast
        omega
      · rfl
    · intro i h1 hlt1
      rw [tick_position W H rng fuel ERR g0 g ht]
      have := hposi i h1 (by omega)
      push_cast
      omega
    · push_cast
      omega
    · rw [hflag, hcol]
      push_cast
      constructor
      · intro hge
        omega
      · intro he
        omega

theorem no_key_run_next (W H : Int) (rng : Nat → Nat) (fuel : Nat) (mem : Snake)
    (t : Nat) (g : Game) (h : no_key_run W H rng fuel mem t = some g)
    (hrun : g.game_over = false) :
    no_key_run W H rng fuel mem (t + 1) = tick W H rng fuel ERR g := by
  rw [no_key_run, h]
  dsimp only
  rw [hrun]
  rfl

theorem reachable_running_interior (W H : Int) (hW : 3 ≤ W) (hH : 3 ≤ H) (rng : Nat → Nat)
    (mem : Snake) (g : Game) (hr : Reachable W H rng mem g) (hrun : g.game_over = false) :
    in_interior W H (g.snake.position 0) := by
  induction hr with
  | init fuel g h =>
    obtain ⟨food, k, _, rfl⟩ := initialize_game_some W H rng fuel mem g h
    obtain ⟨hc1, hc2, _, _⟩ := center_bounds W hW
    obtain ⟨hd1, hd2, _, _⟩ := center_bounds H hH
    show in_interior W H ((initialize_snake W H mem).position 0)
    rw [initialize_snake_position, if_pos rfl]
    exact ⟨hc1, hc2, hd1, hd2⟩
  | step fuel ch g0 g1 _ _ ht _ =>
    rw [tick_position W H rng fuel ch g0 g1 ht]
    apply is_collision_false_interior
    have hflag := tick_game_over W H rng fuel ch g0 g1 ht
    rw [hrun] at hflag
    unfold flag_after_collision at hflag
    cases hc : is_collision W H (advanced ch g0) with
    | false => rfl
    | true =>
      rw [hc] at hflag
      cases hflag

/-! ## The claims -/

/-- C1: for a snake with `1 ≤ length ≤ 100` heading in one of the four directions,
`update_snake` puts at every index `1 ≤ i < length` the old `position[i-1]`, moves
the head by exactly one cell in the direction of travel (UP: `y-1`, DOWN: `y+1`,
LEFT: `x-1`, RIGHT: `x+1`, the other coordinate unchanged) and leaves length,
direction and score as they were. -/
theorem update_snake_shifts_and_steps (snake : Snake)
    (h1 : 1 ≤ snake.length) (h100 : snake.length ≤ SNAKE_CAPACITY)
    (hd : is_direction snake.direction) :
    (∀ i : Nat, 1 ≤ i → (i : Int) < snake.length →
        (update_snake snake).position i = snake.position (i - 1)) ∧
    (snake.direction = UP → (update_snake snake).position 0 =
        ⟨(snake.position 0).x, (snake.position 0).y - 1⟩) ∧
    (snake.direction = DOWN → (update_snake snake).position 0 =
        ⟨(snake.position 0).x, (snake.position 0).y + 1⟩) ∧
    (snake.direction = LEFT → (update_snake snake).position 0 =
        ⟨(snake.position 0).x - 1, (snake.position 0).y⟩) ∧
    (snake.direction = RIGHT → (update_snake snake).position 0 =
        ⟨(snake.position 0).x + 1, (snake.position 0).y⟩) ∧
    (update_snake snake).length = snake.length ∧
    (update_snake snake).direction = snake.direction ∧
    (update_snake snake).score = snake.score := by
  have _ := h1
  have _ := h100
  have _ := hd
  refine ⟨?_, ?_, ?_, ?_, ?_, rfl, rfl, rfl⟩
  · intro i hi hlt
    have h0 : i ≠ 0 := by omega
    rw [update_snake_position, if_neg h0, if_pos hlt]
  · intro h
    rw [update_snake_position, if_pos rfl, h]
    rfl
  · intro h
    rw [update_snake_position, if_pos rfl, h]
    rfl
  · intro h
    rw [update_snake_position, if_pos rfl, h]
    rfl
  · intro h
    rw [update_snake_position, if_pos rfl, h]
    rfl

/-- C1 at `sample_snake` (length 3, heading RIGHT, head at (10, 10)). -/
theorem update_snake_shifts_and_steps_witness :
    (update_snake sample_snake).position 1 = sample_snake.position 0 ∧
    (update_snake sample_snake).position 2 = sample_snake.position 1 ∧
    (update_snake sample_snake).position 0 = ⟨11, 10⟩ ∧
    (update_snake sample_snake).length = 3 := by
  have h := update_snake_shifts_and_steps sample_snake (by decide) (by decide)
    (Or.inr (Or.inr (Or.inr rfl)))
  exact ⟨h.1 1 (by decide) (by decide), h.1 2 (by decide) (by decide),
    h.2.2.2.2.1 rfl, h.2.2.2.2.2.1⟩

/-- C2: the `switch (ch)` of `main` turns the current direction `c` (one of the
four) into the requested arrow direction `r`, unless `r` is the opposite of `c`, in
which case the direction stays `c`; with no key, or any key that is not an arrow,
the direction stays `c`. -/
theorem handle_key_direction (snake : Snake) (game_over : Bool)
    (hc : is_direction snake.direction) :
    (∀ r : Int, is_direction r →
        (handle_key (arrow_key r) snake game_over).1.direction =
          if r = opposite snake.direction then snake.direction else r) ∧
    (∀ ch : Int, ch ≠ KEY_UP → ch ≠ KEY_DOWN → ch ≠ KEY_LEFT → ch ≠ KEY_RIGHT →
        (handle_key ch snake game_over).1.direction = snake.direction) := by
  constructor
  · intro r hr
    rcases hr with rfl | rfl | rfl | rfl <;> rcases hc with h | h | h | h <;>
      simp [handle_key, arrow_key, opposite, h, UP, DOWN, LEFT, RIGHT,
        KEY_UP, KEY_DOWN, KEY_LEFT, KEY_RIGHT]
  · intro ch h1 h2 h3 h4
    unfold handle_key
    rw [if_neg h1, if_neg h2, if_neg h3, if_neg h4]
    split <;> rfl

/-- C2 at `sample_snake` (heading RIGHT): LEFT is refused, UP is taken, and no
key leaves RIGHT. -/
theorem handle_key_direction_witness :
    (handle_key (arrow_key LEFT) sample_snake false).1.direction = RIGHT ∧
    (handle_key (arrow_key UP) sample_snake false).1.direction = UP ∧
    (handle_key ERR sample_snake false).1.direction = RIGHT := by
  have h := handle_key_direction sample_snake false (Or.inr (Or.inr (Or.inr rfl)))
  exact ⟨h.1 LEFT (Or.inr (Or.inr (Or.inl rfl))), h.1 UP (Or.inl rfl),
    h.2 ERR (by decide) (by decide) (by decide) (by decide)⟩

/-- C3: for a snake with `1 ≤ length ≤ 100` on a board `W × H`, `is_collision` is
true exactly when the head is on or beyond the border ring (`x ≤ 0`, `x ≥ W-1`,
`y ≤ 0` or `y ≥ H-1`) or the head is at `position[i]` for some `1 ≤ i < length`. -/
theorem is_collision_iff (W H : Int) (snake : Snake)
    (h1 : 1 ≤ snake.length) (h100 : snake.length ≤ SNAKE_CAPACITY) :
    is_collision W H snake = true ↔
      (((snake.position 0).x ≤ 0 ∨ (snake.position 0).x ≥ W - 1 ∨
          (snake.position 0).y ≤ 0 ∨ (snake.position 0).y ≥ H - 1) ∨
        ∃ i : Nat, 1 ≤ i ∧ (i : Int) < snake.length ∧
          snake.position 0 = snake.position i) := by
  have _ := h1
  have _ := h100
  exact is_collision_true_iff W H snake

/-- C3 at `sample_snake` on a 20 × 20 board: the head is inside the border and on
no other segment, and `is_collision` is false. -/
theorem is_collision_iff_witness :
    is_collision 20 20 sample_snake = false ∧
    ¬ (((sample_snake.position 0).x ≤ 0 ∨ (sample_snake.position 0).x ≥ 20 - 1 ∨
          (sample_snake.position 0).y ≤ 0 ∨ (sample_snake.position 0).y ≥ 20 - 1) ∨
        ∃ i : Nat, 1 ≤ i ∧ (i : Int) < sample_snake.length ∧
          sample_snake.position 0 = sample_snake.position i) := by
  have hf : is_collision 20 20 sample_snake = false := by decide
  refine ⟨hf, fun h => ?_⟩
  have ht := (is_collision_iff 20 20 sample_snake (by decide) (by decide)).2 h
  rw [hf] at ht
  cases ht

/-- C4, for a snake inside the array: `is_food_eaten` is true exactly when the head
is at the food; a tick that starts with `length ≤ 100` and whose `is_food_eaten` (on
the advanced snake) is true ends with the old score plus 10 and the old length
plus 1; and such a tick, started with `length < 100` (so that the grown snake is
still inside the array when `generate_food` scans it), does end as soon as one
round of its `generate_food` draws a free cell. -/
theorem food_eaten_scores_and_grows :
    (∀ (snake : Snake) (food : Position),
        is_food_eaten snake food = true ↔ snake.position 0 = food) ∧
    (∀ (W H : Int) (rng : Nat → Nat) (fuel : Nat) (ch : Int) (g g1 : Game),
        g.snake.length ≤ SNAKE_CAPACITY →
        is_food_eaten (advanced ch g) g.food = true →
        tick W H rng fuel ch g = some g1 →
        g1.snake.score = g.snake.score + 10 ∧ g1.snake.length = g.snake.length + 1) ∧
    (∀ (W H : Int) (rng : Nat → Nat) (ch : Int) (g : Game) (n fuel : Nat),
        g.snake.length < SNAKE_CAPACITY →
        W - 2 ≠ 0 → H - 2 ≠ 0 → n < fuel →
        is_food_eaten (advanced ch g) g.food = true →
        round_is_free W H rng (grow (advanced ch g)) g.rand_calls n →
        ∃ g1, tick W H rng fuel ch g = some g1) := by
  refine ⟨?_, ?_, ?_⟩
  · intro snake food
    exact is_food_eaten_true_iff snake food
  · intro W H rng fuel ch g g1 _ he ht
    obtain ⟨food, k, _, rfl⟩ := tick_eaten W H rng fuel ch g g1 he ht
    constructor
    · show (advanced ch g).score + 10 = g.snake.score + 10
      rw [advanced_score]
    · show (advanced ch g).length + 1 = g.snake.length + 1
      rw [advanced_length]
  · intro W H rng ch g n fuel _ hW hH hfuel _ hfree
    exact tick_eaten_returns W H hW hH rng ch g n fuel hfuel hfree

/-- C4 at `sample_game` on a 20 × 20 board: with no key the head lands on the
food, the tick ends, and it ends with score 10 and length 4. -/
theorem food_eaten_scores_and_grows_witness :
    is_food_eaten (advanced ERR sample_game) sample_game.food = true ∧
    ∃ g1, tick 20 20 sample_rng 1 ERR sample_game = some g1 ∧
      g1.snake.score = 10 ∧ g1.snake.length = 4 := by
  have he : is_food_eaten (advanced ERR sample_game) sample_game.food = true := by decide
  have hfree : round_is_free 20 20 sample_rng (grow (advanced ERR sample_game))
      sample_game.rand_calls 0 := by
    unfold round_is_free
    decide
  obtain ⟨g1, h1⟩ := food_eaten_scores_and_grows.2.2 20 20 sample_rng ERR sample_game 0 1
    (by decide) (by decide) (by decide) (by decide) he hfree
  exact ⟨he, g1, h1,
    food_eaten_scores_and_grows.2.1 20 20 sample_rng 1 ERR sample_game g1 (by decide) he h1⟩

/-- C5: on a board with `W ≥ 3` and `H ≥ 3`, for a snake with `1 ≤ length ≤ 100`
and any random stream, whenever `generate_food` returns, the food lies in the
interior (`1 ≤ x ≤ W-2`, `1 ≤ y ≤ H-2`) and differs from `position[i]` for every
`0 ≤ i < length`. -/
theorem generate_food_interior_and_free (W H : Int) (hW : 3 ≤ W) (hH : 3 ≤ H)
    (rng : Nat → Nat) (snake : Snake)
    (h1 : 1 ≤ snake.length) (h100 : snake.length ≤ SNAKE_CAPACITY)
    (fuel k : Nat) (food : Position) (k1 : Nat)
    (h : generate_food W H rng snake fuel k = some (food, k1)) :
    (1 ≤ food.x ∧ food.x ≤ W - 2 ∧ 1 ≤ food.y ∧ food.y ≤ H - 2) ∧
    ∀ i : Nat, (i : Int) < snake.length → snake.position i ≠ food := by
  have _ := h1
  have _ := h100
  obtain ⟨_, _, n, _, hf, _, hoff⟩ := generate_food_some W H rng snake fuel k food k1 h
  refine ⟨?_, hoff⟩
  rw [hf]
  exact draw_food_in_interior W H hW hH rng _

/-- C5 at `sample_snake` on a 20 × 20 board with the stream 5, 5, …: the first
round returns the food (6, 6). -/
theorem generate_food_interior_and_free_witness :
    generate_food 20 20 sample_rng sample_snake 1 0 = some (⟨6, 6⟩, 2) ∧
    ((1 ≤ (6 : Int) ∧ (6 : Int) ≤ 20 - 2 ∧ 1 ≤ (6 : Int) ∧ (6 : Int) ≤ 20 - 2) ∧
      ∀ i : Nat, (i : Int) < sample_snake.length → sample_snake.position i ≠ ⟨6, 6⟩) :=
  ⟨by decide, generate_food_interior_and_free 20 20 (by decide) (by decide) sample_rng
    sample_snake (by decide) (by decide) 1 0 ⟨6, 6⟩ 2 (by decide)⟩

/-- C6: in every state reached from `initialize_game` by ticks (any keys, any
random stream, any board), seen right after the initialisation and at the end
of each tick, the food differs from `position[i]` for every `0 ≤ i < length`. -/
theorem food_never_on_snake (W H : Int) (rng : Nat → Nat) (mem : Snake) (g : Game)
    (hr : Reachable W H rng mem g) :
    ∀ i : Nat, (i : Int) < g.snake.length → g.snake.position i ≠ g.food := by
  induction hr with
  | init fuel g h =>
    obtain ⟨food, k, hg, rfl⟩ := initialize_game_some W H rng fuel mem g h
    exact (generate_food_some W H rng _ fuel 0 food k hg).2.2.choose_spec.2.2.2
  | step fuel ch g g1 _ _ ht ih =>
    exact tick_keeps_food_off_snake W H rng fuel ch g g1 ih ht

/-- C6 on a 20 × 20 board with the stream 5, 5, …: the state after the
initialisation and one tick without a key is reached, and its food (6, 6) is on
none of its three segments. -/
theorem food_never_on_snake_witness :
    ∃ g, Reachable 20 20 sample_rng zero_memory g ∧ g.food = ⟨6, 6⟩ ∧ g.snake.length = 3 ∧
      ∀ i : Nat, (i : Int) < g.snake.length → g.snake.position i ≠ g.food := by
  have h0 : initialize_game 20 20 sample_rng 1 zero_memory =
      some ⟨initialize_snake 20 20 zero_memory, ⟨6, 6⟩, false, 2⟩ := rfl
  have h1 : tick 20 20 sample_rng 1 ERR ⟨initialize_snake 20 20 zero_memory, ⟨6, 6⟩, false, 2⟩ =
      some ⟨advanced ERR ⟨initialize_snake 20 20 zero_memory, ⟨6, 6⟩, false, 2⟩, ⟨6, 6⟩,
        false, 2⟩ := rfl
  have hr := Reachable.step 1 ERR _ _ (Reachable.init 1 _ h0) rfl h1
  exact ⟨_, hr, rfl, rfl, food_never_on_snake 20 20 sample_rng zero_memory _ hr⟩

/-- C7: on every board `W × H`, `initialize_game` builds a snake of length 3,
direction RIGHT and score 0, with the head at the centre `(W/2, H/2)` (C integer
division) and `position[i] = (W/2 - i, H/2)` for `i = 1, 2`; that snake is the
snake of the game `initialize_game` returns, and it returns as soon as one round
of its `generate_food` draws a free cell. -/
theorem initialize_game_snake (W H : Int) (mem : Snake) :
    (initialize_snake W H mem).length = 3 ∧
    (initialize_snake W H mem).direction = RIGHT ∧
    (initialize_snake W H mem).score = 0 ∧
    (initialize_snake W H mem).position 0 = ⟨Int.tdiv W 2, Int.tdiv H 2⟩ ∧
    (initialize_snake W H mem).position 1 = ⟨Int.tdiv W 2 - 1, Int.tdiv H 2⟩ ∧
    (initialize_snake W H mem).position 2 = ⟨Int.tdiv W 2 - 2, Int.tdiv H 2⟩ ∧
    (∀ (rng : Nat → Nat) (fuel : Nat) (g : Game),
        initialize_game W H rng fuel mem = some g → g.snake = initialize_snake W H mem) ∧
    (∀ (rng : Nat → Nat) (n fuel : Nat), W - 2 ≠ 0 → H - 2 ≠ 0 → n < fuel →
        round_is_free W H rng (initialize_snake W H mem) 0 n →
        ∃ g, initialize_game W H rng fuel mem = some g) := by
  refine ⟨rfl, rfl, rfl, ?_, ?_, ?_, ?_, ?_⟩
  · rw [initialize_snake_position, if_pos rfl]
  · rw [initialize_snake_position]
    rfl
  · rw [initialize_snake_position]
    rfl
  · intro rng fuel g h
    obtain ⟨food, k, _, rfl⟩ := initialize_game_some W H rng fuel mem g h
    rfl
  · intro rng n fuel hW hH hfuel hfree
    exact initialize_game_returns W H hW hH rng mem n fuel hfuel hfree

/-- C7 on a 20 × 20 board with the stream 5, 5, …: `initialize_game` returns in
its first round, with the head at (10, 10). -/
theorem initialize_game_snake_witness :
    ∃ g, initialize_game 20 20 sample_rng 1 zero_memory = some g ∧
      g.snake.position 0 = ⟨10, 10⟩ ∧ g.snake.length = 3 := by
  have hfree : round_is_free 20 20 sample_rng (initialize_snake 20 20 zero_memory) 0 0 := by
    unfold round_is_free
    decide
  have h := initialize_game_snake 20 20 zero_memory
  obtain ⟨g, hg⟩ := h.2.2.2.2.2.2.2 sample_rng 0 1 (by decide) (by decide) (by decide) hfree
  refine ⟨g, hg, ?_, ?_⟩
  · rw [h.2.2.2.2.2.2.1 sample_rng 1 g hg, h.2.2.2.1]
    rfl
  · rw [h.2.2.2.2.2.2.1 sample_rng 1 g hg, h.1]

/-- C8: a tick started in Running (`game_over = false`) ends in GameOver exactly
when the key was `'q'` or `is_collision` is true on the snake after
`update_snake`, and otherwise ends in Running; the tick does end when the food is
not eaten, and when it is eaten as soon as `generate_food` draws a free cell; and
the loop run on a GameOver state processes no tick and returns that state. -/
theorem game_over_iff_quit_or_collision :
    (∀ (W H : Int) (rng : Nat → Nat) (fuel : Nat) (ch : Int) (g g1 : Game),
        g.game_over = false → tick W H rng fuel ch g = some g1 →
        ((g1.game_over = true ↔ (ch = KEY_Q ∨ is_collision W H (advanced ch g) = true)) ∧
         (g1.game_over = false ↔ ¬ (ch = KEY_Q ∨ is_collision W H (advanced ch g) = true)))) ∧
    (∀ (W H : Int) (rng : Nat → Nat) (fuel : Nat) (ch : Int) (g : Game),
        is_food_eaten (advanced ch g) g.food = false →
        ∃ g1, tick W H rng fuel ch g = some g1) ∧
    (∀ (W H : Int) (rng : Nat → Nat) (ch : Int) (g : Game) (n fuel : Nat),
        W - 2 ≠ 0 → H - 2 ≠ 0 → n < fuel →
        round_is_free W H rng (grow (advanced ch g)) g.rand_calls n →
        ∃ g1, tick W H rng fuel ch g = some g1) ∧
    (∀ (W H : Int) (rng : Nat → Nat) (fuel : Nat) (keys : List Int) (g : Game),
        g.game_over = true → game_loop W H rng fuel keys g = some g) := by
  refine ⟨?_, ?_, ?_, ?_⟩
  · intro W H rng fuel ch g g1 hrun ht
    have hflag : g1.game_over = true ↔ (ch = KEY_Q ∨ is_collision W H (advanced ch g) = true) := by
      rw [tick_game_over W H rng fuel ch g g1 ht]
      unfold flag_after_collision
      rw [handle_key_flag, hrun]
      cases hc : is_collision W H (advanced ch g) <;> simp
    refine ⟨hflag, ?_⟩
    rw [← hflag]
    simp
  · intro W H rng fuel ch g he
    exact ⟨_, tick_not_eaten W H rng fuel ch g he⟩
  · intro W H rng ch g n fuel hW hH hfuel hfree
    exact tick_eaten_returns W H hW hH rng ch g n fuel hfuel hfree
  · intro W H rng fuel keys g hover
    cases keys with
    | nil => rfl
    | cons ch rest =>
      rw [game_loop, hover]
      rfl

/-- C8 at `sample_game` on a 20 × 20 board: a tick with `'q'` ends in GameOver, a
tick with no key ends in Running (the advanced head (11, 10) collides with
nothing). -/
theorem game_over_iff_quit_or_collision_witness :
    (∃ g1, tick 20 20 sample_rng 1 KEY_Q sample_game = some g1 ∧ g1.game_over = true) ∧
    (∃ g1, tick 20 20 sample_rng 1 ERR sample_game = some g1 ∧ g1.game_over = false) := by
  have hq : tick 20 20 sample_rng 1 KEY_Q sample_game =
      some ⟨grow (advanced KEY_Q sample_game), ⟨6, 6⟩, true, 2⟩ := rfl
  have hn : tick 20 20 sample_rng 1 ERR sample_game =
      some ⟨grow (advanced ERR sample_game), ⟨6, 6⟩, false, 2⟩ := rfl
  refine ⟨⟨_, hq, ?_⟩, ⟨_, hn, ?_⟩⟩
  · exact ((game_over_iff_quit_or_collision.1 20 20 sample_rng 1 KEY_Q sample_game _ rfl hq).1).2
      (Or.inl rfl)
  · exact ((game_over_iff_quit_or_collision.1 20 20 sample_rng 1 ERR sample_game _ rfl hn).2).2
      (by decide)

/-- C9, as the code has it: a tick that reads `'q'` is processed to its end exactly
as a tick with no key (same advance of the snake in the unchanged direction, same
collision check, same food consumption and new food), except that it ends with
`game_over` set, so that the loop stops after it. -/
theorem quit_tick_runs_to_its_end (W H : Int) (rng : Nat → Nat) (fuel : Nat) (g : Game) :
    tick W H rng fuel KEY_Q g =
        (tick W H rng fuel ERR g).map (fun g1 => { g1 with game_over := true }) ∧
    (handle_key KEY_Q g.snake g.game_over).1 = g.snake ∧
    ∀ g1, tick W H rng fuel KEY_Q g = some g1 →
      g1.game_over = true ∧ ∀ keys, game_loop W H rng fuel keys g1 = some g1 := by
  have hadv : advanced KEY_Q g = advanced ERR g := by
    unfold advanced
    rw [handle_key_quit, handle_key_no_key]
  have hflag : flag_after_collision W H KEY_Q g = true := by
    unfold flag_after_collision
    rw [handle_key_quit]
    split <;> rfl
  have hover : ∀ g1, tick W H rng fuel KEY_Q g = some g1 → g1.game_over = true := by
    intro g1 ht
    rw [tick_game_over W H rng fuel KEY_Q g g1 ht, hflag]
  refine ⟨?_, ?_, ?_⟩
  · unfold tick
    dsimp only
    rw [hadv, hflag]
    split
    · cases generate_food W H rng (grow (advanced ERR g)) fuel g.rand_calls with
      | none => rfl
      | some r => rfl
    · rfl
  · rw [handle_key_quit]
  · intro g1 ht
    refine ⟨hover g1 ht, fun keys => ?_⟩
    cases keys with
    | nil => rfl
    | cons ch rest =>
      rw [game_loop, hover g1 ht]
      rfl

/-- C9 as the code has it, at `sample_game` on a 20 × 20 board: the tick that
reads `'q'` ends, with the state of the tick without a key and `game_over` set,
and the loop then returns that state whatever keys follow. -/
theorem quit_tick_runs_to_its_end_witness :
    ∃ g1, tick 20 20 sample_rng 1 ERR sample_game = some g1 ∧
      tick 20 20 sample_rng 1 KEY_Q sample_game = some { g1 with game_over := true } ∧
      game_loop 20 20 sample_rng 1 [KEY_UP, ERR] { g1 with game_over := true } =
        some { g1 with game_over := true } := by
  have h := quit_tick_runs_to_its_end 20 20 sample_rng 1 sample_game
  have hn : tick 20 20 sample_rng 1 ERR sample_game =
      some ⟨grow (advanced ERR sample_game), ⟨6, 6⟩, false, 2⟩ := rfl
  have hq : tick 20 20 sample_rng 1 KEY_Q sample_game =
      some { (⟨grow (advanced ERR sample_game), ⟨6, 6⟩, false, 2⟩ : Game) with
        game_over := true } := by
    rw [h.1, hn]
    rfl
  exact ⟨_, hn, hq, (h.2.2 _ hq).2 [KEY_UP, ERR]⟩

/-- C9 fails as stated: on a 20 × 20 board, the tick that reads `'q'` in
`sample_game` (head (10, 10), length 3, score 0, food (11, 10)) ends with the
head at (11, 10), length 4, score 10 and the food at (6, 6). -/
theorem quit_tick_changes_the_state :
    ∃ g1, tick 20 20 sample_rng 1 KEY_Q sample_game = some g1 ∧
      sample_game.snake.position 0 = ⟨10, 10⟩ ∧ g1.snake.position 0 = ⟨11, 10⟩ ∧
      sample_game.snake.length = 3 ∧ g1.snake.length = 4 ∧
      sample_game.snake.score = 0 ∧ g1.snake.score = 10 ∧
      sample_game.food = ⟨11, 10⟩ ∧ g1.food = ⟨6, 6⟩ :=
  ⟨⟨grow (advanced KEY_Q sample_game), ⟨6, 6⟩, true, 2⟩, rfl, by decide, by decide, rfl, rfl,
    rfl, rfl, rfl, rfl⟩

/-- C10 fails on the code: on a 300 × 10 board, from a zeroed memory, with no
key and the stream `feeding_rng`, every tick eats, and the state at the end of
tick 98 has length 101, above the 100 cells of `position[100]`: `length++` is not
guarded. -/
theorem length_exceeds_capacity :
    ∃ g, Reachable 300 10 feeding_rng zero_memory g ∧ g.snake.length = 101 ∧
      ¬ (g.snake.length ≤ SNAKE_CAPACITY) := by
  obtain ⟨g, hr, _, hlen, _⟩ := feeding_run 98 (le_refl 98)
  refine ⟨g, hr, hlen, ?_⟩
  rw [hlen]
  decide

/-- C11 as the code has it: `initialize_game` tests nothing about the size of the
board and has no error result.  On every board with `W - 2 ≠ 0` and `H - 2 ≠ 0` it
returns a Running game state whose snake is the one written at `(W/2 - i, H/2)`,
whether or not those cells are in the interior, as soon as one round of its
`generate_food` draws a free cell. -/
theorem initialize_game_has_no_size_check (W H : Int) (rng : Nat → Nat) (mem : Snake)
    (n fuel : Nat) (hW : W - 2 ≠ 0) (hH : H - 2 ≠ 0) (hfuel : n < fuel)
    (hfree : round_is_free W H rng (initialize_snake W H mem) 0 n) :
    ∃ g, initialize_game W H rng fuel mem = some g ∧
      g.snake = initialize_snake W H mem ∧ g.game_over = false := by
  obtain ⟨g, hg⟩ := initialize_game_returns W H hW hH rng mem n fuel hfuel hfree
  obtain ⟨food, k, _, rfl⟩ := initialize_game_some W H rng fuel mem g hg
  exact ⟨_, hg, rfl, rfl⟩

/-- C11 as the code has it, on a 4 × 4 board with the stream 0, 0, …: the first
round draws the free cell (1, 1) and a game state is returned. -/
theorem initialize_game_has_no_size_check_witness :
    ∃ g, initialize_game 4 4 zero_rng 1 zero_memory = some g ∧
      g.snake = initialize_snake 4 4 zero_memory ∧ g.game_over = false :=
  initialize_game_has_no_size_check 4 4 zero_rng zero_memory 0 1 (by decide) (by decide)
    (by decide) (by unfold round_is_free; decide)

/-- C11 fails as stated: on a 4 × 4 board the third initial segment is at (0, 2), on
the border ring and so outside the interior, and `initialize_game` still returns a
Running game state, with the food at (1, 1). -/
theorem initialize_game_accepts_small_board :
    (initialize_snake 4 4 zero_memory).position 2 = ⟨0, 2⟩ ∧
    ¬ in_interior 4 4 ((initialize_snake 4 4 zero_memory).position 2) ∧
    initialize_game 4 4 zero_rng 1 zero_memory =
      some ⟨initialize_snake 4 4 zero_memory, ⟨1, 1⟩, false, 2⟩ := by
  refine ⟨by decide, ?_, rfl⟩
  unfold in_interior
  decide

/-- C12 as the code has it: the wall test of `is_collision` is true exactly when
the head is on or beyond the border (`x ≤ 0`, `x ≥ W-1`, `y ≤ 0` or `y ≥ H-1`); for a
head on the board that is exactly `x ∈ {0, W-1}` or `y ∈ {0, H-1}`; and the wall
test is the first test of `is_collision`. -/
theorem wall_collision_iff (W H : Int) (head : Position) :
    (wall_collision W H head = true ↔
      (head.x ≤ 0 ∨ head.x ≥ W - 1 ∨ head.y ≤ 0 ∨ head.y ≥ H - 1)) ∧
    (on_board W H head → (wall_collision W H head = true ↔ on_border_ring W H head)) ∧
    (∀ snake : Snake, snake.position 0 = head →
      is_collision W H snake = (wall_collision W H head ||
        scan_segments snake.position head (snake.length - 1).toNat 1)) := by
  refine ⟨wall_collision_true_iff W H head, ?_, ?_⟩
  · intro hb
    rw [wall_collision_true_iff]
    unfold on_board at hb
    unfold on_border_ring
    omega
  · intro snake hs
    rw [← hs]
    exact is_collision_eq W H snake

/-- C12 as the code has it, on a 20 × 20 board: the head (19, 5) is on the board,
on its border ring, and the wall test is true. -/
theorem wall_collision_iff_witness :
    wall_collision 20 20 ⟨19, 5⟩ = true ∧ on_border_ring 20 20 ⟨19, 5⟩ := by
  have hb : on_board 20 20 ⟨19, 5⟩ := by
    unfold on_board
    decide
  have h := (wall_collision_iff 20 20 ⟨19, 5⟩).2.1 hb
  have ht : wall_collision 20 20 ⟨19, 5⟩ = true := by decide
  exact ⟨ht, h.1 ht⟩

/-- C12 fails as stated: on a 20 × 20 board the wall test is true for the head
(-1, 5), whose `x` is neither 0 nor 19 and whose `y` is neither 0 nor 19. -/
theorem wall_collision_beyond_border :
    wall_collision 20 20 ⟨-1, 5⟩ = true ∧
    is_collision 20 20 { sample_snake with position := fun _ => ⟨-1, 5⟩, length := 1 } = true ∧
    ¬ on_border_ring 20 20 ⟨-1, 5⟩ := by
  refine ⟨by decide, by decide, ?_⟩
  unfold on_border_ring
  decide

/-- C13: for a snake of length `L` (`1 ≤ L < 100`) that has eaten (`length++`,
`score += 10`), whatever value `v` the cell `L` holds, the next `update_snake` puts
at index `L` the position the tail (index `L - 1`) had before it, and at the
indices `0 … L-1` what `update_snake` puts there for the snake of length `L`. -/
theorem growth_adds_segment_at_old_tail (snake : Snake) (L : Nat) (v : Position)
    (hL : snake.length = (L : Int)) (h1 : 1 ≤ L) (h100 : (L : Int) < SNAKE_CAPACITY) :
    (grow { snake with position := Function.update snake.position L v }).length = (L : Int) + 1 ∧
    (update_snake (grow { snake with position := Function.update snake.position L v })).position L
      = snake.position (L - 1) ∧
    ∀ i : Nat, i < L →
      (update_snake (grow { snake with position := Function.update snake.position L v })).position i
        = (update_snake snake).position i := by
  have _ := h100
  have hne : L - 1 ≠ L := by omega
  refine ⟨?_, ?_, ?_⟩
  · show snake.length + 1 = (L : Int) + 1
    rw [hL]
  · rw [update_snake_position, if_neg (by omega)]
    have hlt : (L : Int) < (grow { snake with
        position := Function.update snake.position L v }).length := by
      show (L : Int) < snake.length + 1
      omega
    rw [if_pos hlt]
    show Function.update snake.position L v (L - 1) = snake.position (L - 1)
    rw [Function.update_noteq hne]
  · intro i hi
    rw [update_snake_position, update_snake_position]
    have h0 : (0 : Nat) ≠ L := by omega
    by_cases hi0 : i = 0
    · subst hi0
      rw [if_pos rfl, if_pos rfl]
      show move_head snake.direction (Function.update snake.position L v 0) =
        move_head snake.direction (snake.position 0)
      rw [Function.update_noteq h0]
    · have hlt1 : (i : Int) < (grow { snake with
          position := Function.update snake.position L v }).length := by
        show (i : Int) < snake.length + 1
        omega
      have hlt2 : (i : Int) < snake.length := by omega
      have hne2 : i - 1 ≠ L := by omega
      rw [if_neg hi0, if_neg hi0, if_pos hlt1, if_pos hlt2]
      show Function.update snake.position L v (i - 1) = snake.position (i - 1)
      rw [Function.update_noteq hne2]

/-- C13 at `sample_snake` (length 3, tail at (8, 10)) with the value (0, 0) in cell
3: after the growth and the next `update_snake` the cell 3 is (8, 10). -/
theorem growth_adds_segment_at_old_tail_witness :
    (update_snake (grow { sample_snake with
        position := Function.update sample_snake.position 3 ⟨0, 0⟩ })).position 3 = ⟨8, 10⟩ ∧
    sample_snake.position 2 = ⟨8, 10⟩ := by
  have h := growth_adds_segment_at_old_tail sample_snake 3 ⟨0, 0⟩ rfl (by decide) (by decide)
  refine ⟨?_, by decide⟩
  rw [h.2.1]
  decide

/-- C14, for a snake inside the array: in every run from `initialize_game`, after
the `update_snake` of a tick that starts with `length ≤ 100` the new `position[2]`
is the old `position[1]` and the new head is not on it: the head never steps onto
the cell that was directly behind it. -/
theorem head_never_steps_back (W H : Int) (rng : Nat → Nat) (mem : Snake) (g : Game)
    (hr : Reachable W H rng mem g) (hfit : g.snake.length ≤ SNAKE_CAPACITY) (ch : Int) :
    (advanced ch g).position 2 = g.snake.position 1 ∧
    (advanced ch g).position 0 ≠ g.snake.position 1 ∧
    (advanced ch g).position 0 ≠ (advanced ch g).position 2 := by
  have _ := hfit
  obtain ⟨h3, _, hdir, hhead, _⟩ := reachable_well_formed W H rng mem g hr
  have h2 : (advanced ch g).position 2 = g.snake.position 1 := by
    have hlt : ((2 : Nat) : Int) < g.snake.length := by omega
    rw [advanced_position, if_neg (by omega), if_pos hlt]
  have h0 : (advanced ch g).position 0 ≠ g.snake.position 1 := by
    rw [advanced_position, if_pos rfl, hhead]
    have hs := handle_key_steers ch g.snake g.game_over hdir
    exact move_head_not_back _ _ hdir hs.1 hs.2 _
  refine ⟨h2, h0, ?_⟩
  rw [h2]
  exact h0

/-- C14 on a 20 × 20 board: right after the initialisation the snake heads RIGHT
with `position[1] = (9, 10)`; the key LEFT is refused and the advanced head is
(11, 10). -/
theorem head_never_steps_back_witness :
    ∃ g, Reachable 20 20 sample_rng zero_memory g ∧ g.snake.position 1 = ⟨9, 10⟩ ∧
      (advanced KEY_LEFT g).position 0 = ⟨11, 10⟩ ∧
      (advanced KEY_LEFT g).position 0 ≠ g.snake.position 1 := by
  have h0 : initialize_game 20 20 sample_rng 1 zero_memory =
      some ⟨initialize_snake 20 20 zero_memory, ⟨6, 6⟩, false, 2⟩ := rfl
  have hr := Reachable.init 1 _ h0
  exact ⟨_, hr, by decide, by decide,
    (head_never_steps_back 20 20 sample_rng zero_memory _ hr (by decide) KEY_LEFT).2.1⟩

/-- C15 as the code has it, for a snake inside the array: on a board with `W ≥ 10`
and `H ≥ 10`, in the run without a key, as long as the length of the snake is at
most 100, the head is at `(W/2 + t, H/2)` after `t` ticks; `is_collision` is true
in a tick exactly when the head's `x` reaches `W-1` in it, which is tick number
`W - 1 - W/2` (that is `W/2` for an odd `W` and `W/2 - 1` for an even `W`); the game
is over exactly from that tick on, and no later tick runs.  Before it, the next
tick returns when the food is not eaten, and when it is eaten (with a length
below 100) as soon as `generate_food` draws a free cell. -/
theorem no_key_run_reaches_right_wall (W H : Int) (hW : 10 ≤ W) (hH : 10 ≤ H)
    (rng : Nat → Nat) (fuel : Nat) (mem : Snake) (t : Nat) (g : Game)
    (h : no_key_run W H rng fuel mem t = some g)
    (hfit : g.snake.length ≤ SNAKE_CAPACITY) :
    g.snake.position 0 = ⟨Int.tdiv W 2 + (t : Int), Int.tdiv H 2⟩ ∧
    (t : Int) ≤ W - 1 - Int.tdiv W 2 ∧
    (g.game_over = true ↔ (g.snake.position 0).x = W - 1) ∧
    (g.game_over = true ↔ (t : Int) = W - 1 - Int.tdiv W 2) ∧
    (W % 2 = 1 → W - 1 - Int.tdiv W 2 = Int.tdiv W 2) ∧
    (W % 2 = 0 → W - 1 - Int.tdiv W 2 = Int.tdiv W 2 - 1) ∧
    (g.game_over = false →
      (is_collision W H (advanced ERR g) = true ↔ ((advanced ERR g).position 0).x = W - 1) ∧
      (is_collision W H (advanced ERR g) = true ↔ (t : Int) + 1 = W - 1 - Int.tdiv W 2) ∧
      (is_food_eaten (advanced ERR g) g.food = false →
        ∃ g1, no_key_run W H rng fuel mem (t + 1) = some g1) ∧
      (g.snake.length < SNAKE_CAPACITY → ∀ n : Nat, n < fuel →
        round_is_free W H rng (grow (advanced ERR g)) g.rand_calls n →
        ∃ g1, no_key_run W H rng fuel mem (t + 1) = some g1)) ∧
    (g.game_over = true → no_key_run W H rng fuel mem (t + 1) = none) := by
  have _ := hfit
  obtain ⟨hdir, hhead, hbody, hle, hiff⟩ :=
    no_key_run_state W H (by omega) (by omega) rng fuel mem t g h
  obtain ⟨hd1, hd2, _, _⟩ := center_bounds H (by omega)
  have hdiv : Int.tdiv W 2 = W / 2 := Int.tdiv_eq_ediv (by omega) (by decide)
  refine ⟨hhead, by omega, ?_, ?_, ?_, ?_, ?_, ?_⟩
  · rw [hiff, hhead]
  · rw [hiff]
    constructor <;> intro he <;> omega
  · intro hodd
    rw [hdiv]
    omega
  · intro heven
    rw [hdiv]
    omega
  · intro hrun
    have hlt : Int.tdiv W 2 + (t : Int) < W - 1 := by
      have hne : ¬ (Int.tdiv W 2 + (t : Int) = W - 1) := by
        intro he
        have := hiff.2 he
        rw [hrun] at this
        cases this
      omega
    obtain ⟨hpos0, _, hcol⟩ := straight_step W H g (Int.tdiv W 2 + (t : Int))
      (Int.tdiv H 2) (by omega) hd1 hd2 hdir hhead hbody
    refine ⟨?_, ?_, ?_, ?_⟩
    · rw [hcol, hpos0]
      dsimp only
      constructor <;> intro he <;> omega
    · rw [hcol]
      constructor <;> intro he <;> omega
    · intro hne
      rw [no_key_run_next W H rng fuel mem t g h hrun]
      exact ⟨_, tick_not_eaten W H rng fuel ERR g hne⟩
    · intro _ n hn hfree
      rw [no_key_run_next W H rng fuel mem t g h hrun]
      exact tick_eaten_returns W H (by omega) (by omega) rng ERR g n fuel hn hfree
  · intro hover
    rw [no_key_run, h]
    dsimp only
    rw [hover]
    rfl

/-- C15 as the code has it, on a 20 × 20 board with the stream 5, 5, … (the food
at (6, 6) is never on the snake's row): the run without a key has a ninth tick, after
which the head is at (19, 10) and the game is over. -/
theorem no_key_run_reaches_right_wall_witness :
    ∃ g, no_key_run 20 20 sample_rng 1 zero_memory 9 = some g ∧ g.snake.length = 3 ∧
      g.snake.position 0 = ⟨19, 10⟩ ∧ g.game_over = true := by
  have hs : (no_key_run 20 20 sample_rng 1 zero_memory 9).isSome = true := by decide
  obtain ⟨g, hg⟩ := Option.isSome_iff_exists.1 hs
  have hl : (no_key_run 20 20 sample_rng 1 zero_memory 9).map (fun g => g.snake.length) =
      some 3 := by decide
  rw [hg] at hl
  have hlen : g.snake.length = 3 := Option.some.inj hl
  have hfit : g.snake.length ≤ SNAKE_CAPACITY := by
    rw [hlen]
    decide
  have h := no_key_run_reaches_right_wall 20 20 (by decide) (by decide) sample_rng 1
    zero_memory 9 g hg hfit
  refine ⟨g, hg, hlen, ?_, h.2.2.2.1.2 (by decide)⟩
  rw [h.1]
  decide

/-- C15 fails as stated: on a 20 × 20 board the run without a key is still Running
after 8 ticks, is over after tick 9 with the head's `x` at 19, and has no tick 10,
while `W/2 = 10`. -/
theorem no_key_run_even_width_ends_early :
    (no_key_run 20 20 sample_rng 1 zero_memory 8).map
        (fun g => (g.game_over, (g.snake.position 0).x)) = some (false, 18) ∧
    (no_key_run 20 20 sample_rng 1 zero_memory 9).map
        (fun g => (g.game_over, (g.snake.position 0).x)) = some (true, 19) ∧
    (no_key_run 20 20 sample_rng 1 zero_memory 10).isSome = false ∧
    Int.tdiv 20 2 = 10 := by
  refine ⟨by decide, by decide, by decide, by decide⟩

/-- C16, for a snake inside the array: a tick that starts with `length ≤ 100` and
whose advanced head is not on the food returns, and leaves the food, the length of
the snake and the score as they were. -/
theorem tick_off_food_keeps_food (W H : Int) (rng : Nat → Nat) (fuel : Nat) (ch : Int)
    (g : Game) (hfit : g.snake.length ≤ SNAKE_CAPACITY)
    (hne : (advanced ch g).position 0 ≠ g.food) :
    ∃ g1, tick W H rng fuel ch g = some g1 ∧ g1.food = g.food ∧
      g1.snake.length = g.snake.length ∧ g1.snake.score = g.snake.score := by
  have _ := hfit
  have he := (is_food_eaten_false_iff (advanced ch g) g.food).2 hne
  exact ⟨_, tick_not_eaten W H rng fuel ch g he, rfl, advanced_length ch g,
    advanced_score ch g⟩

/-- C16 at `sample_game` with the key UP: the head goes to (10, 9), off the food
(11, 10), and the tick keeps the food, the length 3 and the score 0. -/
theorem tick_off_food_keeps_food_witness :
    ∃ g1, tick 20 20 sample_rng 1 KEY_UP sample_game = some g1 ∧ g1.food = ⟨11, 10⟩ ∧
      g1.snake.length = 3 ∧ g1.snake.score = 0 :=
  tick_off_food_keeps_food 20 20 sample_rng 1 KEY_UP sample_game (by decide) (by decide)

/-- C17: on a board with `W ≥ 10` and `H ≥ 10` the three segments of the freshly
initialised snake are pairwise distinct, so the head is on no segment of index
`≥ 1` and the self-collision scan finds nothing; and after one tick with no key
the head is at `(W/2 + 1, H/2)`, `is_collision` is false and the game still runs. -/
theorem fresh_snake_first_tick (W H : Int) (hW : 10 ≤ W) (hH : 10 ≤ H) (mem : Snake)
    (food : Position) (k : Nat) :
    (initialize_snake W H mem).position 0 ≠ (initialize_snake W H mem).position 1 ∧
    (initialize_snake W H mem).position 0 ≠ (initialize_snake W H mem).position 2 ∧
    (initialize_snake W H mem).position 1 ≠ (initialize_snake W H mem).position 2 ∧
    (∀ i : Nat, 1 ≤ i → (i : Int) < (initialize_snake W H mem).length →
      (initialize_snake W H mem).position 0 ≠ (initialize_snake W H mem).position i) ∧
    scan_segments (initialize_snake W H mem).position ((initialize_snake W H mem).position 0)
      ((initialize_snake W H mem).length - 1).toNat 1 = false ∧
    (advanced ERR ⟨initialize_snake W H mem, food, false, k⟩).position 0 =
      ⟨Int.tdiv W 2 + 1, Int.tdiv H 2⟩ ∧
    is_collision W H (advanced ERR ⟨initialize_snake W H mem, food, false, k⟩) = false ∧
    ∀ (rng : Nat → Nat) (fuel : Nat) (g1 : Game),
      tick W H rng fuel ERR ⟨initialize_snake W H mem, food, false, k⟩ = some g1 →
      g1.snake.position 0 = ⟨Int.tdiv W 2 + 1, Int.tdiv H 2⟩ ∧ g1.game_over = false := by
  obtain ⟨hc1, hc2, hc3, hc4⟩ := center_bounds W (by omega)
  obtain ⟨hd1, hd2, _, _⟩ := center_bounds H (by omega)
  have hp0 : (initialize_snake W H mem).position 0 = ⟨Int.tdiv W 2, Int.tdiv H 2⟩ := by
    rw [initialize_snake_position, if_pos rfl]
  have hp1 : (initialize_snake W H mem).position 1 = ⟨Int.tdiv W 2 - 1, Int.tdiv H 2⟩ := by
    rw [initialize_snake_position]
    rfl
  have hp2 : (initialize_snake W H mem).position 2 = ⟨Int.tdiv W 2 - 2, Int.tdiv H 2⟩ := by
    rw [initialize_snake_position]
    rfl
  have h3 : (initialize_snake W H mem).length = 3 := rfl
  have h01 : (initialize_snake W H mem).position 0 ≠ (initialize_snake W H mem).position 1 := by
    rw [hp0, hp1]
    intro he
    have := congrArg Position.x he
    dsimp only at this
    omega
  have h02 : (initialize_snake W H mem).position 0 ≠ (initialize_snake W H mem).position 2 := by
    rw [hp0, hp2]
    intro he
    have := congrArg Position.x he
    dsimp only at this
    omega
  have h12 : (initialize_snake W H mem).position 1 ≠ (initialize_snake W H mem).position 2 := by
    rw [hp1, hp2]
    intro he
    have := congrArg Position.x he
    dsimp only at this
    omega
  have hall : ∀ i : Nat, 1 ≤ i → (i : Int) < (initialize_snake W H mem).length →
      (initialize_snake W H mem).position 0 ≠ (initialize_snake W H mem).position i := by
    intro i hi hlt
    rw [h3] at hlt
    have hcase : i = 1 ∨ i = 2 := by omega
    rcases hcase with rfl | rfl
    · exact h01
    · exact h02
  have hstep := straight_step W H ⟨initialize_snake W H mem, food, false, k⟩ (Int.tdiv W 2)
    (Int.tdiv H 2) (by omega) hd1 hd2 rfl hp0 (by
      intro i hi hlt
      have hlt2 : (i : Int) + 1 < (initialize_snake W H mem).length := hlt
      rw [h3] at hlt2
      have hi1 : i = 1 := by omega
      subst hi1
      show ((initialize_snake W H mem).position 1).x < Int.tdiv W 2
      rw [hp1]
      show Int.tdiv W 2 - 1 < Int.tdiv W 2
      omega)
  have hcol : is_collision W H (advanced ERR ⟨initialize_snake W H mem, food, false, k⟩) =
      false := by
    rw [← Bool.not_eq_true, hstep.2.2]
    omega
  refine ⟨h01, h02, h12, hall, ?_, hstep.1, hcol, ?_⟩
  · rw [scan_segments_false_iff]
    intro j hj1 hj2 he
    have hlt : (j : Int) < (initialize_snake W H mem).length := by
      rw [h3] at hj2 ⊢
      have h2 : ((3 : Int) - 1).toNat = 2 := by decide
      rw [h2] at hj2
      omega
    exact hall j hj1 hlt he.symm
  · intro rng fuel g1 ht
    constructor
    · rw [tick_position W H rng fuel ERR _ g1 ht]
      exact hstep.1
    · rw [tick_game_over W H rng fuel ERR _ g1 ht, flag_after_collision_no_key W H _ rfl]
      exact hcol

/-- C17 on a 20 × 20 board with the food at (6, 6): the tick without a key on the
fresh snake returns, with the head at (11, 10) and the game still running. -/
theorem fresh_snake_first_tick_witness :
    ∃ g1, tick 20 20 sample_rng 1 ERR ⟨initialize_snake 20 20 zero_memory, ⟨6, 6⟩, false, 2⟩
        = some g1 ∧ g1.snake.position 0 = ⟨11, 10⟩ ∧ g1.game_over = false := by
  have ht : tick 20 20 sample_rng 1 ERR ⟨initialize_snake 20 20 zero_memory, ⟨6, 6⟩, false, 2⟩ =
      some ⟨advanced ERR ⟨initialize_snake 20 20 zero_memory, ⟨6, 6⟩, false, 2⟩, ⟨6, 6⟩,
        false, 2⟩ := rfl
  have h := (fresh_snake_first_tick 20 20 (by decide) (by decide) zero_memory ⟨6, 6⟩ 2).2.2.2.2.2.2.2
    sample_rng 1 _ ht
  refine ⟨_, ht, ?_, h.2⟩
  rw [h.1]
  decide

/-- C18, for a snake inside the array: in every state reached from
`initialize_game` by ticks and with `length ≤ 100` the score is `10 * (length - 3)`;
it is not negative and it is a multiple of 10. -/
theorem score_tied_to_length (W H : Int) (rng : Nat → Nat) (mem : Snake) (g : Game)
    (hr : Reachable W H rng mem g) (hfit : g.snake.length ≤ SNAKE_CAPACITY) :
    g.snake.score = 10 * (g.snake.length - 3) ∧ 0 ≤ g.snake.score ∧
    ∃ m : Nat, g.snake.score = 10 * (m : Int) := by
  have _ := hfit
  obtain ⟨h3, hs, _, _, _⟩ := reachable_well_formed W H rng mem g hr
  refine ⟨hs, by omega, (g.snake.length - 3).toNat, ?_⟩
  rw [hs]
  omega

/-- C18 on a 300 × 10 board with the stream `feeding_rng`: the state after one
tick that has eaten is reached, with length 4 and score 10. -/
theorem score_tied_to_length_witness :
    ∃ g, Reachable 300 10 feeding_rng zero_memory g ∧ g.snake.length = 4 ∧
      g.snake.score = 10 ∧ g.snake.score = 10 * (g.snake.length - 3) := by
  obtain ⟨g, hr, _, hlen, _, hscore, _⟩ := feeding_run 1 (by decide)
  have hfit : g.snake.length ≤ SNAKE_CAPACITY := by
    rw [hlen]
    decide
  exact ⟨g, hr, hlen, hscore,
    (score_tied_to_length 300 10 feeding_rng zero_memory g hr hfit).1⟩

/-- C19: on a board with `W ≥ 3` and `H ≥ 3`, in every run from `initialize_game`,
at the start of a tick processed while Running the head is strictly inside the
border; so at the collision check of that tick the head is on the board
(`0 ≤ x ≤ W-1`, `0 ≤ y ≤ H-1`), and a wall collision finds it exactly on the
border ring. -/
theorem head_never_leaves_board (W H : Int) (hW : 3 ≤ W) (hH : 3 ≤ H) (rng : Nat → Nat)
    (mem : Snake) (g : Game) (hr : Reachable W H rng mem g) (hrun : g.game_over = false)
    (ch : Int) :
    (1 ≤ (g.snake.position 0).x ∧ (g.snake.position 0).x ≤ W - 2 ∧
      1 ≤ (g.snake.position 0).y ∧ (g.snake.position 0).y ≤ H - 2) ∧
    (0 ≤ ((advanced ch g).position 0).x ∧ ((advanced ch g).position 0).x ≤ W - 1 ∧
      0 ≤ ((advanced ch g).position 0).y ∧ ((advanced ch g).position 0).y ≤ H - 1) ∧
    (wall_collision W H ((advanced ch g).position 0) = true →
      (((advanced ch g).position 0).x = 0 ∨ ((advanced ch g).position 0).x = W - 1 ∨
        ((advanced ch g).position 0).y = 0 ∨ ((advanced ch g).position 0).y = H - 1)) := by
  have hin := reachable_running_interior W H hW hH rng mem g hr hrun
  unfold in_interior at hin
  have hnear := move_head_near (handle_key ch g.snake g.game_over).1.direction
    (g.snake.position 0)
  have hpos : (advanced ch g).position 0 =
      move_head (handle_key ch g.snake g.game_over).1.direction (g.snake.position 0) := by
    rw [advanced_position, if_pos rfl]
  rw [hpos]
  refine ⟨hin, by omega, ?_⟩
  intro hw
  rw [wall_collision_true_iff] at hw
  omega

/-- C19 on a 20 × 20 board: right after the initialisation the game runs with the
head at (10, 10), strictly inside the border. -/
theorem head_never_leaves_board_witness :
    ∃ g, Reachable 20 20 sample_rng zero_memory g ∧ g.game_over = false ∧
      (1 ≤ (g.snake.position 0).x ∧ (g.snake.position 0).x ≤ 20 - 2 ∧
        1 ≤ (g.snake.position 0).y ∧ (g.snake.position 0).y ≤ 20 - 2) := by
  have h0 : initialize_game 20 20 sample_rng 1 zero_memory =
      some ⟨initialize_snake 20 20 zero_memory, ⟨6, 6⟩, false, 2⟩ := rfl
  have hr := Reachable.init 1 _ h0
  exact ⟨_, hr, rfl,
    (head_never_leaves_board 20 20 (by decide) (by decide) sample_rng zero_memory _ hr rfl ERR).1⟩

/-- C20, for a snake inside the array: in every run from `initialize_game`, right
after the `update_snake` of a tick that starts with `length ≤ 100` (also of a tick
that follows a growth) every `position[i]` with `1 ≤ i < length` is an orthogonal
neighbour of `position[i-1]`: the two differ by exactly 1 in exactly one
coordinate. -/
theorem body_contiguous_after_update (W H : Int) (rng : Nat → Nat) (mem : Snake) (g : Game)
    (hr : Reachable W H rng mem g) (hfit : g.snake.length ≤ SNAKE_CAPACITY) (ch : Int) :
    ∀ i : Nat, 1 ≤ i → (i : Int) < (advanced ch g).length →
      (((advanced ch g).position i).y = ((advanced ch g).position (i - 1)).y ∧
        (((advanced ch g).position i).x = ((advanced ch g).position (i - 1)).x + 1 ∨
          ((advanced ch g).position i).x + 1 = ((advanced ch g).position (i - 1)).x)) ∨
      (((advanced ch g).position i).x = ((advanced ch g).position (i - 1)).x ∧
        (((advanced ch g).position i).y = ((advanced ch g).position (i - 1)).y + 1 ∨
          ((advanced ch g).position i).y + 1 = ((advanced ch g).position (i - 1)).y)) := by
  have _ := hfit
  intro i h1 hlt
  exact advanced_contiguous ch g (reachable_well_formed W H rng mem g hr) i h1 hlt

/-- C20 on a 300 × 10 board with the stream `feeding_rng`: the state after one tick
that has eaten has length 4, and after the next `update_snake` the new last cell
(index 3) is a neighbour of the cell of index 2. -/
theorem body_contiguous_after_update_witness :
    ∃ g, Reachable 300 10 feeding_rng zero_memory g ∧ g.snake.length = 4 ∧
      adjacent ((advanced ERR g).position 3) ((advanced ERR g).position 2) := by
  obtain ⟨g, hr, _, hlen, _⟩ := feeding_run 1 (by decide)
  refine ⟨g, hr, hlen, ?_⟩
  have hlt : ((3 : Nat) : Int) < (advanced ERR g).length := by
    rw [advanced_length, hlen]
    decide
  have hfit : g.snake.length ≤ SNAKE_CAPACITY := by
    rw [hlen]
    decide
  exact body_contiguous_after_update 300 10 feeding_rng zero_memory g hr hfit ERR 3
    (by decide) hlt

end SnakeGame
